import Mathlib

/-!
# Verification of the ssm-proxy user-space TCP/IP translation core

Shallow embedding of the Go sources of `sbkg0002/ssm-proxy`:

* `internal/forwarder/tun_to_socks.go` — connection tracker, packet builders,
  checksums (`handlePacket`, `handleSYN`, `sendSYNACK`, `readFromSOCKS`,
  `closeConn`, `tcpConn.close`, `buildTCPPacket`, `ipChecksum`, `tcpChecksum`,
  `uint32ToIP`);
* the forwarder's UDP/DNS file — `HandleUDPPacket`, `handleDNSQuery`,
  `buildUDPPacket`, `udpChecksum`;
* `internal/dns/resolver.go` — `ShouldHandle`, `Query`, `getFromCache`,
  `addToCache`, `ExtractDomainFromQuery`;
* `internal/tunnel/tun_darwin.go` — `TunDevice.Read`;
* `internal/routing/router.go` — `Router.AddRoute`, `Router.Cleanup` together
  with the route-installation loop of `runStart` in `cmd/ssm-proxy/main.go`.

Machine integers are modelled as `Nat` with explicit `% 2^w` at the points the
Go code can overflow.  Byte buffers are `List Nat` (each element a byte value).
Effects (SOCKS dials, writes to the TUN device, `Close` calls on egress
streams) are made explicit in returned effect records; external systems (the
SOCKS dialer, the upstream DNS server, the OS routing commands) are oracles
passed as parameters.
-/

namespace SSMProxy

/-! ## Bytes and big-endian serialisation (`encoding/binary`) -/

/-- `binary.BigEndian.PutUint16`: the two big-endian bytes of a 16-bit value
(a wider `Nat` is truncated exactly as Go's `uint16(x)` conversion does). -/
def put16 (v : Nat) : List Nat := [v / 256 % 256, v % 256]

/-- `binary.BigEndian.PutUint32`: the four big-endian bytes of a 32-bit value. -/
def put32 (v : Nat) : List Nat :=
  [v / 2 ^ 24 % 256, v / 2 ^ 16 % 256, v / 2 ^ 8 % 256, v % 256]

/-- `binary.BigEndian.Uint16` over two bytes. -/
def be16 (a b : Nat) : Nat := a * 256 + b

/-- `binary.BigEndian.Uint32` over four bytes. -/
def be32 (a b c d : Nat) : Nat := a * 2 ^ 24 + b * 2 ^ 16 + c * 2 ^ 8 + d

/-! ## Internet checksum arithmetic

Both Go checksum helpers sum consecutive big-endian 16-bit words into a
`uint32` and then fold carries with
`for sum > 0xffff { sum = (sum & 0xffff) + (sum >> 16) }` before returning the
one's complement `^uint16(sum)`.  `ipChecksum` silently skips a trailing odd
byte (`if i+1 < len(header)`); the L4 variants pad a trailing odd byte as the
high half of a final word. -/

/-- Word sum, skipping a trailing odd byte (`ipChecksum`'s loop). -/
def wsumSkip : List Nat → Nat
  | a :: b :: rest => be16 a b + wsumSkip rest
  | _ => 0

/-- Word sum, padding a trailing odd byte with a zero low byte
(`tcpChecksum` / `udpChecksum` loops). -/
def wsumPad : List Nat → Nat
  | a :: b :: rest => be16 a b + wsumPad rest
  | [a] => a * 256
  | [] => 0

/-- The carry-folding loop `for sum > 0xffff { sum = (sum&0xffff)+(sum>>16) }`. -/
def foldCsum (s : Nat) : Nat :=
  if h : s ≤ 0xffff then s
  else foldCsum (s % 65536 + s / 65536)
  termination_by s
  decreasing_by omega

theorem foldCsum_le (s : Nat) : foldCsum s ≤ 0xffff := by
  induction s using foldCsum.induct with
  | case1 s h => rw [foldCsum, dif_pos h]; exact h
  | case2 s h ih => rw [foldCsum, dif_neg h]; exact ih

theorem foldCsum_le_self (s : Nat) : foldCsum s ≤ s := by
  induction s using foldCsum.induct with
  | case1 s h => rw [foldCsum, dif_pos h]
  | case2 s h ih =>
    rw [foldCsum, dif_neg h]
    have := Nat.div_add_mod s 65536
    have hq : 1 ≤ s / 65536 := Nat.one_le_div_iff (by norm_num) |>.2 (by omega)
    have h2 : s / 65536 ≤ 65536 * (s / 65536) :=
      Nat.le_mul_of_pos_left _ (by norm_num)
    omega

theorem foldCsum_mod (s : Nat) : foldCsum s % 65535 = s % 65535 := by
  induction s using foldCsum.induct with
  | case1 s h => rw [foldCsum, dif_pos h]
  | case2 s h ih =>
    rw [foldCsum, dif_neg h, ih]
    omega

theorem foldCsum_pos {s : Nat} (h : 0 < s) : 0 < foldCsum s := by
  induction s using foldCsum.induct with
  | case1 s hle => rw [foldCsum, dif_pos hle]; exact h
  | case2 s hle ih =>
    rw [foldCsum, dif_neg hle]
    exact ih (by omega)

/-- A positive multiple of `0xffff` folds to exactly `0xffff`. -/
theorem foldCsum_of_dvd {s : Nat} (hd : 65535 ∣ s) (hs : 0 < s) :
    foldCsum s = 65535 := by
  have h1 := foldCsum_le s
  have h2 := foldCsum_pos hs
  have h3 := foldCsum_mod s
  rcases hd with ⟨k, rfl⟩
  rw [Nat.mul_mod_right] at h3
  have : foldCsum (65535 * k) % 65535 = 0 := h3
  omega

/-- Core validity lemma: inserting the one's-complement checksum
`0xffff - foldCsum t` into a buffer whose word sum was `t` makes the folded
word sum of the result exactly `0xffff`. -/
theorem foldCsum_insert (t : Nat) :
    foldCsum (t + (65535 - foldCsum t)) = 65535 := by
  have hle := foldCsum_le t
  have hself := foldCsum_le_self t
  have hmod := foldCsum_mod t
  have hpos : 0 < t + (65535 - foldCsum t) := by omega
  exact foldCsum_of_dvd (Nat.dvd_of_mod_eq_zero (by omega)) hpos

/-! ## IPv4 addresses

`uint32ToIP` in `tun_to_socks.go` produces `net.IPv4(byte(ip>>24), byte(ip>>16),
byte(ip>>8), byte(ip))`; the builders then use its `.To4()` four-byte form. -/

/-- A four-byte IPv4 address (the `.To4()` view of a `net.IP`). -/
structure IPv4 where
  b0 : Nat
  b1 : Nat
  b2 : Nat
  b3 : Nat
  deriving DecidableEq, Repr

/-- `uint32ToIP` from `tun_to_socks.go`. -/
def uint32ToIP (ip : Nat) : IPv4 :=
  ⟨ip / 2 ^ 24 % 256, ip / 2 ^ 16 % 256, ip / 2 ^ 8 % 256, ip % 256⟩

/-- The four bytes of an address as written into a packet by `copy(..., ip.To4())`. -/
def IPv4.bytes (ip : IPv4) : List Nat := [ip.b0, ip.b1, ip.b2, ip.b3]

/-! ## Checksums over buffers (`ipChecksum`, `tcpChecksum`, `udpChecksum`) -/

/-- `ipChecksum(header)`: fold the 16-bit word sum (trailing odd byte skipped)
and return its one's complement.  After the loop `sum ≤ 0xffff`, so Go's
`^uint16(sum)` is `0xffff - sum`. -/
def ipChecksum (header : List Nat) : Nat := 65535 - foldCsum (wsumSkip header)

/-- The TCP/UDP pseudo-header of `tcpChecksum`/`udpChecksum`: source address,
destination address, a zero byte, the protocol number, and the big-endian
16-bit segment length (`uint16(len(segment))`, hence `% 65536`). -/
def pseudoHeader (proto : Nat) (srcIP dstIP : IPv4) (seg : List Nat) : List Nat :=
  srcIP.bytes ++ dstIP.bytes ++ [0, proto] ++ put16 (seg.length % 65536) ++ seg

/-- `tcpChecksum(srcIP, dstIP, tcpSegment)`: one's complement of the folded
word sum over the pseudo-header followed by the segment (odd byte padded). -/
def tcpChecksum (srcIP dstIP : IPv4) (seg : List Nat) : Nat :=
  65535 - foldCsum (wsumPad (pseudoHeader 6 srcIP dstIP seg))

/-- Zero the UDP checksum field (offsets 6 and 7 of the UDP header), as
`udpChecksum` does to `pseudo[12+6]`/`pseudo[12+7]` before summing. -/
def zeroUdpCk (seg : List Nat) : List Nat := (seg.set 6 0).set 7 0

/-- `udpChecksum(srcIP, dstIP, udpSegment)`: like `tcpChecksum` with protocol
17, additionally clearing the checksum field inside the copied segment. -/
def udpChecksum (srcIP dstIP : IPv4) (seg : List Nat) : Nat :=
  65535 - foldCsum (wsumPad (pseudoHeader 17 srcIP dstIP (zeroUdpCk seg)))

/-! ## Packet builders (`buildTCPPacket`, `buildUDPPacket`) -/

/-- The 20 IPv4 header bytes written by both builders: version/IHL `0x45`,
zero TOS, big-endian total length (`uint16(totalLen)`), zero identification,
`0x4000` (don't-fragment), TTL 64, the protocol number, the checksum, and the
two addresses.  `ck` is the header checksum value inserted at offsets 10–11. -/
def ipHeaderBytes (totalLen proto : Nat) (srcIP dstIP : IPv4) (ck : Nat) : List Nat :=
  [0x45, 0] ++ put16 (totalLen % 65536) ++ [0, 0, 0x40, 0, 64, proto] ++
    put16 ck ++ srcIP.bytes ++ dstIP.bytes

/-- The 20 TCP header bytes of `buildTCPPacket`: ports, sequence and ack
numbers, data offset `0x50`, the flag byte, window 65535, the checksum `ck`,
and a zero urgent pointer. -/
def tcpHeaderBytes (srcPort dstPort seqNum ackNum flags ck : Nat) : List Nat :=
  put16 srcPort ++ put16 dstPort ++ put32 seqNum ++ put32 ackNum ++
    [0x50, flags] ++ put16 65535 ++ put16 ck ++ [0, 0]

/-- `buildTCPPacket` from `tun_to_socks.go`: IPv4 header (checksum computed
over the header with a zero checksum field) followed by the TCP segment whose
checksum is computed over the pseudo-header and the segment with a zero
checksum field. -/
def buildTCPPacket (srcIP : IPv4) (srcPort : Nat) (dstIP : IPv4) (dstPort : Nat)
    (seqNum ackNum flags : Nat) (payload : List Nat) : List Nat :=
  let totalLen := 20 + 20 + payload.length
  let seg0 := tcpHeaderBytes srcPort dstPort seqNum ackNum flags 0 ++ payload
  let tck := tcpChecksum srcIP dstIP seg0
  let ick := ipChecksum (ipHeaderBytes totalLen 6 srcIP dstIP 0)
  ipHeaderBytes totalLen 6 srcIP dstIP ick ++
    tcpHeaderBytes srcPort dstPort seqNum ackNum flags tck ++ payload

/-- The 8 UDP header bytes of `buildUDPPacket`: ports, big-endian UDP length
(`uint16(udpHdrLen+len(payload))`) and the checksum `ck`. -/
def udpHeaderBytes (srcPort dstPort udpLen ck : Nat) : List Nat :=
  put16 srcPort ++ put16 dstPort ++ put16 (udpLen % 65536) ++ put16 ck

/-- `buildUDPPacket` from the forwarder's UDP/DNS file: IPv4 header with
protocol 17 followed by the UDP segment, with both checksums computed over
zero-checksum copies. -/
def buildUDPPacket (srcIP : IPv4) (srcPort : Nat) (dstIP : IPv4) (dstPort : Nat)
    (payload : List Nat) : List Nat :=
  let totalLen := 20 + 8 + payload.length
  let seg0 := udpHeaderBytes srcPort dstPort (8 + payload.length) 0 ++ payload
  let uck := udpChecksum srcIP dstIP seg0
  let ick := ipChecksum (ipHeaderBytes totalLen 17 srcIP dstIP 0)
  ipHeaderBytes totalLen 17 srcIP dstIP ick ++
    udpHeaderBytes srcPort dstPort (8 + payload.length) uck ++ payload

/-! ## Field accessors on emitted packets -/

/-- Byte `i` of a packet (0 when out of range; all emitted packets are long
enough wherever these are used). -/
def byteAt : List Nat → Nat → Nat
  | [], _ => 0
  | a :: _, 0 => a
  | _ :: l, n + 1 => byteAt l n

/-- The IPv4 total-length field (bytes 2–3, big-endian). -/
def ipTotalLenField (pkt : List Nat) : Nat := be16 (byteAt pkt 2) (byteAt pkt 3)

/-- The IPv4 fragment field (bytes 6–7, big-endian); `0x4000` = don't-fragment. -/
def ipFragField (pkt : List Nat) : Nat := be16 (byteAt pkt 6) (byteAt pkt 7)

/-- The IPv4 TTL field (byte 8). -/
def ipTTLField (pkt : List Nat) : Nat := byteAt pkt 8

/-- The IPv4 protocol field (byte 9). -/
def ipProtoField (pkt : List Nat) : Nat := byteAt pkt 9

/-- The TCP sequence-number field of a packet with a 20-byte IP header
(bytes 24–27, big-endian). -/
def tcpSeqField (pkt : List Nat) : Nat :=
  be32 (byteAt pkt 24) (byteAt pkt 25) (byteAt pkt 26) (byteAt pkt 27)

/-- The TCP acknowledgment field (bytes 28–31, big-endian). -/
def tcpAckField (pkt : List Nat) : Nat :=
  be32 (byteAt pkt 28) (byteAt pkt 29) (byteAt pkt 30) (byteAt pkt 31)

/-- The TCP flags byte (byte 33). -/
def tcpFlagsField (pkt : List Nat) : Nat := byteAt pkt 33

/-- The TCP window field (bytes 34–35, big-endian). -/
def tcpWindowField (pkt : List Nat) : Nat := be16 (byteAt pkt 34) (byteAt pkt 35)

/-- The payload of a TCP packet with 20-byte IP and TCP headers. -/
def tcpPayloadOf (pkt : List Nat) : List Nat := pkt.drop 40

/-- The IP header checksum of `pkt` validates: the end-around-carry fold of
the 16-bit word sum over the full 20-byte header (checksum field included)
is `0xffff`. -/
def ipChecksumValid (pkt : List Nat) : Prop :=
  foldCsum (wsumSkip (pkt.take 20)) = 65535

/-- The L4 checksum of `pkt` (TCP or UDP, per `proto`) validates over the
standard pseudo-header: the folded word sum over pseudo-header plus the
transmitted segment (checksum field included) is `0xffff`. -/
def l4ChecksumValid (proto : Nat) (srcIP dstIP : IPv4) (pkt : List Nat) : Prop :=
  foldCsum (wsumPad (pseudoHeader proto srcIP dstIP (pkt.drop 20))) = 65535

/-! ## Structural lemmas about the builders -/

theorem ipHeaderBytes_length (tl p ck : Nat) (s d : IPv4) :
    (ipHeaderBytes tl p s d ck).length = 20 := by
  simp [ipHeaderBytes, put16, IPv4.bytes]

theorem tcpHeaderBytes_length (sp dp sq ak fl ck : Nat) :
    (tcpHeaderBytes sp dp sq ak fl ck).length = 20 := by
  simp [tcpHeaderBytes, put16, put32]

theorem udpHeaderBytes_length (sp dp ul ck : Nat) :
    (udpHeaderBytes sp dp ul ck).length = 8 := by
  simp [udpHeaderBytes, put16]

/-- Inserting a 16-bit checksum into the IP header adds exactly its value to
the word sum. -/
theorem wsumSkip_ipHeaderBytes (tl p ck : Nat) (s d : IPv4) (h : ck ≤ 65535) :
    wsumSkip (ipHeaderBytes tl p s d ck)
      = wsumSkip (ipHeaderBytes tl p s d 0) + ck := by
  simp [ipHeaderBytes, put16, IPv4.bytes, wsumSkip, be16]
  omega

theorem wsumPad_append : ∀ (a : List Nat), a.length % 2 = 0 →
    ∀ b, wsumPad (a ++ b) = wsumPad a + wsumPad b := by
  intro a
  induction a using wsumPad.induct with
  | case1 x y rest ih =>
    intro h b
    simp only [List.cons_append, wsumPad, List.append_eq]
    rw [ih (by simp at h; omega) b]
    ring
  | case2 x => intro h; simp at h
  | case3 => intro _ b; simp [wsumPad]

/-- Inserting a 16-bit checksum into the TCP header adds exactly its value to
the padded word sum of header plus payload. -/
theorem wsumPad_tcpHeaderBytes (sp dp sq ak fl ck : Nat) (pl : List Nat)
    (h : ck ≤ 65535) :
    wsumPad (tcpHeaderBytes sp dp sq ak fl ck ++ pl)
      = wsumPad (tcpHeaderBytes sp dp sq ak fl 0 ++ pl) + ck := by
  rw [wsumPad_append _ (by rw [tcpHeaderBytes_length]) pl,
    wsumPad_append _ (by rw [tcpHeaderBytes_length]) pl]
  have hh : wsumPad (tcpHeaderBytes sp dp sq ak fl ck)
      = wsumPad (tcpHeaderBytes sp dp sq ak fl 0) + ck := by
    simp [tcpHeaderBytes, put16, put32, wsumPad, be16]
    omega
  omega

/-- Same fact for the UDP header. -/
theorem wsumPad_udpHeaderBytes (sp dp ul ck : Nat) (pl : List Nat)
    (h : ck ≤ 65535) :
    wsumPad (udpHeaderBytes sp dp ul ck ++ pl)
      = wsumPad (udpHeaderBytes sp dp ul 0 ++ pl) + ck := by
  rw [wsumPad_append _ (by rw [udpHeaderBytes_length]) pl,
    wsumPad_append _ (by rw [udpHeaderBytes_length]) pl]
  have hh : wsumPad (udpHeaderBytes sp dp ul ck)
      = wsumPad (udpHeaderBytes sp dp ul 0) + ck := by
    simp [udpHeaderBytes, put16, wsumPad, be16]
    omega
  omega

/-- The word sum of a pseudo-header splits into its 12 fixed bytes plus the
segment. -/
theorem wsumPad_pseudoHeader (proto : Nat) (s d : IPv4) (seg : List Nat) :
    wsumPad (pseudoHeader proto s d seg)
      = wsumPad (s.bytes ++ d.bytes ++ [0, proto] ++ put16 (seg.length % 65536))
          + wsumPad seg := by
  have h12 : (s.bytes ++ d.bytes ++ [0, proto] ++
      put16 (seg.length % 65536)).length % 2 = 0 := by
    simp [IPv4.bytes, put16]
  calc wsumPad (pseudoHeader proto s d seg)
      = wsumPad ((s.bytes ++ d.bytes ++ [0, proto] ++
          put16 (seg.length % 65536)) ++ seg) := by
        simp [pseudoHeader]
    _ = _ := wsumPad_append _ h12 seg

/-- The first 20 bytes of a built TCP packet are its IP header. -/
theorem take20_buildTCPPacket (s : IPv4) (sp : Nat) (d : IPv4) (dp sq ak fl : Nat)
    (pl : List Nat) :
    (buildTCPPacket s sp d dp sq ak fl pl).take 20
      = ipHeaderBytes (40 + pl.length) 6 s d
          (ipChecksum (ipHeaderBytes (40 + pl.length) 6 s d 0)) := by
  simp only [buildTCPPacket]
  rw [List.append_assoc]
  exact List.take_left' (ipHeaderBytes_length _ _ _ _ _)

/-- Dropping the IP header of a built TCP packet leaves the TCP segment with
its transmitted checksum. -/
theorem drop20_buildTCPPacket (s : IPv4) (sp : Nat) (d : IPv4) (dp sq ak fl : Nat)
    (pl : List Nat) :
    (buildTCPPacket s sp d dp sq ak fl pl).drop 20
      = tcpHeaderBytes sp dp sq ak fl
          (tcpChecksum s d (tcpHeaderBytes sp dp sq ak fl 0 ++ pl)) ++ pl := by
  simp only [buildTCPPacket]
  rw [List.append_assoc]
  exact List.drop_left' (ipHeaderBytes_length _ _ _ _ _)

theorem take20_buildUDPPacket (s : IPv4) (sp : Nat) (d : IPv4) (dp : Nat)
    (pl : List Nat) :
    (buildUDPPacket s sp d dp pl).take 20
      = ipHeaderBytes (28 + pl.length) 17 s d
          (ipChecksum (ipHeaderBytes (28 + pl.length) 17 s d 0)) := by
  simp only [buildUDPPacket]
  rw [List.append_assoc]
  exact List.take_left' (ipHeaderBytes_length _ _ _ _ _)

theorem drop20_buildUDPPacket (s : IPv4) (sp : Nat) (d : IPv4) (dp : Nat)
    (pl : List Nat) :
    (buildUDPPacket s sp d dp pl).drop 20
      = udpHeaderBytes sp dp (8 + pl.length)
          (udpChecksum s d (udpHeaderBytes sp dp (8 + pl.length) 0 ++ pl)) ++ pl := by
  simp only [buildUDPPacket]
  rw [List.append_assoc]
  exact List.drop_left' (ipHeaderBytes_length _ _ _ _ _)

/-- An IP header built with the checksum computed by `ipChecksum` over its own
zero-checksum form validates. -/
theorem ipHeader_checksum_valid (tl p : Nat) (s d : IPv4) :
    foldCsum (wsumSkip (ipHeaderBytes tl p s d
      (ipChecksum (ipHeaderBytes tl p s d 0)))) = 65535 := by
  rw [wsumSkip_ipHeaderBytes _ _ _ _ _ (by simp [ipChecksum])]
  simp only [ipChecksum]
  exact foldCsum_insert _

theorem buildTCPPacket_length (s : IPv4) (sp : Nat) (d : IPv4) (dp sq ak fl : Nat)
    (pl : List Nat) :
    (buildTCPPacket s sp d dp sq ak fl pl).length = 40 + pl.length := by
  simp only [buildTCPPacket]
  rw [List.append_assoc, List.length_append, List.length_append,
    ipHeaderBytes_length, tcpHeaderBytes_length]
  omega

theorem buildUDPPacket_length (s : IPv4) (sp : Nat) (d : IPv4) (dp : Nat)
    (pl : List Nat) :
    (buildUDPPacket s sp d dp pl).length = 28 + pl.length := by
  simp only [buildUDPPacket]
  rw [List.append_assoc, List.length_append, List.length_append,
    ipHeaderBytes_length, udpHeaderBytes_length]
  omega

/-- The TCP checksum of a built TCP packet validates over the pseudo-header. -/
theorem buildTCPPacket_l4_valid (s : IPv4) (sp : Nat) (d : IPv4) (dp sq ak fl : Nat)
    (pl : List Nat) :
    l4ChecksumValid 6 s d (buildTCPPacket s sp d dp sq ak fl pl) := by
  rw [l4ChecksumValid, drop20_buildTCPPacket]
  have hlen : (tcpHeaderBytes sp dp sq ak fl
      (tcpChecksum s d (tcpHeaderBytes sp dp sq ak fl 0 ++ pl)) ++ pl).length
      = (tcpHeaderBytes sp dp sq ak fl 0 ++ pl).length := by
    simp [tcpHeaderBytes_length]
  rw [wsumPad_pseudoHeader, hlen,
    wsumPad_tcpHeaderBytes _ _ _ _ _ _ _ (by simp [tcpChecksum]),
    ← Nat.add_assoc, ← wsumPad_pseudoHeader]
  simp only [tcpChecksum]
  exact foldCsum_insert _

/-- The zero-checksum UDP segment is unchanged by `udpChecksum`'s defensive
clearing of its checksum field. -/
theorem zeroUdpCk_of_zero (sp dp ul : Nat) (pl : List Nat) :
    zeroUdpCk (udpHeaderBytes sp dp ul 0 ++ pl) = udpHeaderBytes sp dp ul 0 ++ pl := rfl

/-- The UDP checksum of a built UDP packet validates over the pseudo-header. -/
theorem buildUDPPacket_l4_valid (s : IPv4) (sp : Nat) (d : IPv4) (dp : Nat)
    (pl : List Nat) :
    l4ChecksumValid 17 s d (buildUDPPacket s sp d dp pl) := by
  rw [l4ChecksumValid, drop20_buildUDPPacket]
  have hlen : (udpHeaderBytes sp dp (8 + pl.length)
      (udpChecksum s d (udpHeaderBytes sp dp (8 + pl.length) 0 ++ pl)) ++ pl).length
      = (udpHeaderBytes sp dp (8 + pl.length) 0 ++ pl).length := by
    simp [udpHeaderBytes_length]
  rw [wsumPad_pseudoHeader, hlen,
    wsumPad_udpHeaderBytes _ _ _ _ _ (by simp [udpChecksum]),
    ← Nat.add_assoc, ← wsumPad_pseudoHeader]
  simp only [udpChecksum, zeroUdpCk_of_zero]
  exact foldCsum_insert _

/-- **C5** — For every source address, destination address, ports,
sequence/ack numbers, flags, and payload of at most 16384 bytes, the TCP and
UDP packet builders produce an IPv4 datagram whose total-length field equals
the datagram's byte length, whose don't-fragment flag is set, whose TTL is 64,
whose IP header checksum validates (the one's-complement sum of the header
including the checksum field is `0xffff`), and whose TCP or UDP checksum over
the standard pseudo-header validates; synthesized TCP segments additionally
carry window size 65535. -/
theorem c5_packet_builders :
    (∀ (srcIP dstIP : IPv4) (srcPort dstPort seqNum ackNum flags : Nat)
        (payload : List Nat), payload.length ≤ 16384 →
      (buildTCPPacket srcIP srcPort dstIP dstPort seqNum ackNum flags payload).length
          = 40 + payload.length ∧
      ipTotalLenField (buildTCPPacket srcIP srcPort dstIP dstPort seqNum ackNum flags payload)
          = (buildTCPPacket srcIP srcPort dstIP dstPort seqNum ackNum flags payload).length ∧
      ipFragField (buildTCPPacket srcIP srcPort dstIP dstPort seqNum ackNum flags payload)
          = 0x4000 ∧
      ipTTLField (buildTCPPacket srcIP srcPort dstIP dstPort seqNum ackNum flags payload)
          = 64 ∧
      ipChecksumValid (buildTCPPacket srcIP srcPort dstIP dstPort seqNum ackNum flags payload) ∧
      l4ChecksumValid 6 srcIP dstIP
          (buildTCPPacket srcIP srcPort dstIP dstPort seqNum ackNum flags payload) ∧
      tcpWindowField (buildTCPPacket srcIP srcPort dstIP dstPort seqNum ackNum flags payload)
          = 65535) ∧
    (∀ (srcIP dstIP : IPv4) (srcPort dstPort : Nat) (payload : List Nat),
        payload.length ≤ 16384 →
      (buildUDPPacket srcIP srcPort dstIP dstPort payload).length = 28 + payload.length ∧
      ipTotalLenField (buildUDPPacket srcIP srcPort dstIP dstPort payload)
          = (buildUDPPacket srcIP srcPort dstIP dstPort payload).length ∧
      ipFragField (buildUDPPacket srcIP srcPort dstIP dstPort payload) = 0x4000 ∧
      ipTTLField (buildUDPPacket srcIP srcPort dstIP dstPort payload) = 64 ∧
      ipChecksumValid (buildUDPPacket srcIP srcPort dstIP dstPort payload) ∧
      l4ChecksumValid 17 srcIP dstIP (buildUDPPacket srcIP srcPort dstIP dstPort payload)) := by
  constructor
  · intro s d sp dp sq ak fl pl hlen
    refine ⟨buildTCPPacket_length s sp d dp sq ak fl pl, ?_, ?_, rfl, ?_, ?_, ?_⟩
    · have hb2 : byteAt (buildTCPPacket s sp d dp sq ak fl pl) 2
          = (20 + 20 + pl.length) % 65536 / 256 % 256 := rfl
      have hb3 : byteAt (buildTCPPacket s sp d dp sq ak fl pl) 3
          = (20 + 20 + pl.length) % 65536 % 256 := rfl
      rw [ipTotalLenField, hb2, hb3, buildTCPPacket_length, be16]
      omega
    · have hb6 : byteAt (buildTCPPacket s sp d dp sq ak fl pl) 6 = 0x40 := rfl
      have hb7 : byteAt (buildTCPPacket s sp d dp sq ak fl pl) 7 = 0 := rfl
      rw [ipFragField, hb6, hb7, be16]
    · rw [ipChecksumValid, take20_buildTCPPacket]
      exact ipHeader_checksum_valid _ _ _ _
    · exact buildTCPPacket_l4_valid s sp d dp sq ak fl pl
    · have hb34 : byteAt (buildTCPPacket s sp d dp sq ak fl pl) 34 = 255 := rfl
      have hb35 : byteAt (buildTCPPacket s sp d dp sq ak fl pl) 35 = 255 := rfl
      rw [tcpWindowField, hb34, hb35, be16]
  · intro s d sp dp pl hlen
    refine ⟨buildUDPPacket_length s sp d dp pl, ?_, ?_, rfl, ?_, ?_⟩
    · have hb2 : byteAt (buildUDPPacket s sp d dp pl) 2
          = (20 + 8 + pl.length) % 65536 / 256 % 256 := rfl
      have hb3 : byteAt (buildUDPPacket s sp d dp pl) 3
          = (20 + 8 + pl.length) % 65536 % 256 := rfl
      rw [ipTotalLenField, hb2, hb3, buildUDPPacket_length, be16]
      omega
    · have hb6 : byteAt (buildUDPPacket s sp d dp pl) 6 = 0x40 := rfl
      have hb7 : byteAt (buildUDPPacket s sp d dp pl) 7 = 0 := rfl
      rw [ipFragField, hb6, hb7, be16]
    · rw [ipChecksumValid, take20_buildUDPPacket]
      exact ipHeader_checksum_valid _ _ _ _
    · exact buildUDPPacket_l4_valid s sp d dp pl

/-- Witness for C5 at a concrete input: source `10.0.1.10:80`, destination
`10.0.0.5:40000`, a 5-byte payload. -/
theorem c5_packet_builders_witness :
    (buildTCPPacket ⟨10, 0, 1, 10⟩ 80 ⟨10, 0, 0, 5⟩ 40000 0 12346 0x12
        [104, 101, 108, 108, 111]).length = 45 ∧
    ipTTLField (buildTCPPacket ⟨10, 0, 1, 10⟩ 80 ⟨10, 0, 0, 5⟩ 40000 0 12346 0x12
        [104, 101, 108, 108, 111]) = 64 ∧
    ipChecksumValid (buildTCPPacket ⟨10, 0, 1, 10⟩ 80 ⟨10, 0, 0, 5⟩ 40000 0 12346 0x12
        [104, 101, 108, 108, 111]) := by
  have h := c5_packet_builders.1 ⟨10, 0, 1, 10⟩ ⟨10, 0, 0, 5⟩ 80 40000 0 12346 0x12
    [104, 101, 108, 108, 111] (by decide)
  exact ⟨h.1, h.2.2.2.1, h.2.2.2.2.1⟩

/-! ## The connection tracker (`tun_to_socks.go`)

TCP flag constants, the per-flow record `tcpConn`, the flow table
`map[connKey]*tcpConn`, and the handlers.  Externals are oracles:

* `dial : ConnKey → Option Nat` — the SOCKS dial for a destination, returning
  a fresh stream handle on success (`x/net/proxy`'s SOCKS5 dialer implements
  `DialContext`, so the `Dial` fallback branch of `handleSYN` is dead; one
  oracle consultation models the one dial attempt);
* `writeOk : Nat → Bool` — whether a `Write` on a given stream succeeds.

Every handler returns its new table together with an explicit effect record:
packets written to the TUN device, dials attempted, stream handles on which
`Close` was invoked, and payloads written to streams. -/

def tcpFIN : Nat := 0x01

def tcpSYN : Nat := 0x02

def tcpRST : Nat := 0x04

def tcpPSH : Nat := 0x08

def tcpACK : Nat := 0x10

/-- `connKey` — the 5-tuple (protocol fixed to TCP) identifying a flow. -/
structure ConnKey where
  srcIP : Nat
  dstIP : Nat
  srcPort : Nat
  dstPort : Nat
  deriving DecidableEq, Repr

/-- `tcpConn` — the per-flow record.  `socksConn` holds the abstract handle of
the egress stream. -/
structure TcpConn where
  key : ConnKey
  socksConn : Option Nat
  lastActive : Nat
  seqNum : Nat
  ackNum : Nat
  established : Bool
  closing : Bool
  deriving DecidableEq, Repr

/-- Lookup in the flow table (`t.connections[key]`). -/
def lookupConn : List (ConnKey × TcpConn) → ConnKey → Option TcpConn
  | [], _ => none
  | (k, c) :: rest, key => if k = key then some c else lookupConn rest key

/-- Map store (`t.connections[key] = conn`): replaces an existing binding. -/
def insertConn : List (ConnKey × TcpConn) → ConnKey → TcpConn →
    List (ConnKey × TcpConn)
  | [], key, c => [(key, c)]
  | (k, c') :: rest, key, c =>
    if k = key then (key, c) :: rest else (k, c') :: insertConn rest key c

/-- Map delete (`delete(t.connections, key)`). -/
def eraseConn : List (ConnKey × TcpConn) → ConnKey → List (ConnKey × TcpConn)
  | [], _ => []
  | (k, c') :: rest, key =>
    if k = key then rest else (k, c') :: eraseConn rest key

/-- `tcpConn.close` (`tun_to_socks.go:418-430`): a no-op when the closing flag
is already set; otherwise sets it and invokes `Close` on the egress stream if
present.  Returns the updated record and the handles closed. -/
def closeTcpConn (c : TcpConn) : TcpConn × List Nat :=
  if c.closing then (c, [])
  else
    ({ c with closing := true },
      match c.socksConn with
      | some sid => [sid]
      | none => [])

/-- `TunToSOCKS.closeConn` (`tun_to_socks.go:366-374`): close and remove the
flow if present. -/
def closeConn (tbl : List (ConnKey × TcpConn)) (key : ConnKey) :
    List (ConnKey × TcpConn) × List Nat :=
  match lookupConn tbl key with
  | none => (tbl, [])
  | some c => (eraseConn tbl key, (closeTcpConn c).2)

/-- `sendSYNACK` (`tun_to_socks.go:306-316`): a SYN|ACK from the flow's
destination back to its source, sequence 0, ack `seqNum+1` (32-bit). -/
def sendSYNACK (key : ConnKey) (seqNum : Nat) : List Nat :=
  buildTCPPacket (uint32ToIP key.dstIP) key.dstPort (uint32ToIP key.srcIP)
    key.srcPort 0 ((seqNum + 1) % 2 ^ 32) (tcpSYN ||| tcpACK) []

/-- Result of `handleSYN`: the new flow table, packets written to the TUN
device, dials attempted, and whether an error was returned. -/
structure SynResult where
  table : List (ConnKey × TcpConn)
  emitted : List (List Nat)
  dialed : List ConnKey
  err : Bool
  deriving Repr

/-- `handleSYN` (`tun_to_socks.go:260-303`): dial the destination through
SOCKS; on failure return the error (no table change, nothing emitted); on
success install a fresh flow (`seqNum` = observed sequence, `ackNum` =
observed sequence + 1, established, not closing) and send the SYN-ACK.
The spawned `readFromSOCKS` task is modelled separately by `readChunkStep`. -/
def handleSYN (dial : ConnKey → Option Nat) (now : Nat)
    (tbl : List (ConnKey × TcpConn)) (key : ConnKey) (seqNum : Nat) : SynResult :=
  match dial key with
  | none => ⟨tbl, [], [key], true⟩
  | some sid =>
    let conn : TcpConn :=
      ⟨key, some sid, now, seqNum, (seqNum + 1) % 2 ^ 32, true, false⟩
    ⟨insertConn tbl key conn, [sendSYNACK key seqNum], [key], false⟩

/-- One non-empty chunk of the `readFromSOCKS` loop body
(`tun_to_socks.go:343-361`): save `ackNum`, advance it by the chunk length
(32-bit), refresh `lastActive`, and emit a PSH|ACK data packet whose TCP
sequence-number argument is the saved `ackNum` and whose acknowledgment
argument is the flow's `seqNum`. -/
def readChunkStep (c : TcpConn) (now : Nat) (chunk : List Nat) :
    TcpConn × List Nat :=
  let ackNum := c.ackNum
  ({ c with ackNum := (c.ackNum + chunk.length) % 2 ^ 32, lastActive := now },
    buildTCPPacket (uint32ToIP c.key.dstIP) c.key.dstPort
      (uint32ToIP c.key.srcIP) c.key.srcPort
      ackNum c.seqNum (tcpPSH ||| tcpACK) chunk)

/-- The `readFromSOCKS` loop over a sequence of reads: an empty chunk (a read
returning `n = 0`) produces nothing; a non-empty chunk goes through
`readChunkStep`.  Returns the final flow state and the emitted packets in
order. -/
def readChunks (c : TcpConn) (now : Nat) : List (List Nat) → TcpConn × List (List Nat)
  | [] => (c, [])
  | ch :: rest =>
    if ch = [] then readChunks c now rest
    else
      let r := readChunkStep c now ch
      let r2 := readChunks r.1 now rest
      (r2.1, r.2 :: r2.2)

/-! ## `handlePacket` over raw datagram bytes (`tun_to_socks.go:175-257`) -/

/-- Effects and outcome of one `handlePacket` call. -/
structure StepResult where
  table : List (ConnKey × TcpConn)
  emitted : List (List Nat)
  dialed : List ConnKey
  closedSocks : List Nat
  socksWrites : List (Nat × List Nat)
  err : Bool
  deriving Repr

/-- `handlePacket`: validate the IPv4 header, drop non-TCP, parse the TCP
header, then dispatch on flags: RST or FIN close the flow; SYN without ACK
goes to `handleSYN`; anything else updates an existing flow (refreshing
`lastActive` and overwriting `seqNum`/`ackNum` with the segment's values) and
forwards a non-empty payload to the flow's egress stream, closing the flow if
that write fails.  A segment for an unknown key is ignored. -/
def handlePacket (dial : ConnKey → Option Nat) (writeOk : Nat → Bool) (now : Nat)
    (tbl : List (ConnKey × TcpConn)) (packet : List Nat) : StepResult :=
  if packet.length < 20 ∨ byteAt packet 0 / 16 ≠ 4 then
    ⟨tbl, [], [], [], [], true⟩
  else
    let ihl := byteAt packet 0 % 16 * 4
    if packet.length < ihl ∨ ihl < 20 then ⟨tbl, [], [], [], [], true⟩
    else if byteAt packet 9 ≠ 6 then ⟨tbl, [], [], [], [], false⟩
    else
      let srcIP := be32 (byteAt packet 12) (byteAt packet 13) (byteAt packet 14)
        (byteAt packet 15)
      let dstIP := be32 (byteAt packet 16) (byteAt packet 17) (byteAt packet 18)
        (byteAt packet 19)
      if packet.length < ihl + 20 then ⟨tbl, [], [], [], [], true⟩
      else
        let tcpHeader := packet.drop ihl
        let srcPort := be16 (byteAt tcpHeader 0) (byteAt tcpHeader 1)
        let dstPort := be16 (byteAt tcpHeader 2) (byteAt tcpHeader 3)
        let seqNum := be32 (byteAt tcpHeader 4) (byteAt tcpHeader 5)
          (byteAt tcpHeader 6) (byteAt tcpHeader 7)
        let ackNum := be32 (byteAt tcpHeader 8) (byteAt tcpHeader 9)
          (byteAt tcpHeader 10) (byteAt tcpHeader 11)
        let dataOffset := byteAt tcpHeader 12 / 16 * 4
        let flags := byteAt tcpHeader 13
        if tcpHeader.length < dataOffset then ⟨tbl, [], [], [], [], true⟩
        else
          let payload := tcpHeader.drop dataOffset
          let key : ConnKey := ⟨srcIP, dstIP, srcPort, dstPort⟩
          if flags &&& tcpRST ≠ 0 then
            let r := closeConn tbl key
            ⟨r.1, [], [], r.2, [], false⟩
          else if flags &&& tcpFIN ≠ 0 then
            let r := closeConn tbl key
            ⟨r.1, [], [], r.2, [], false⟩
          else if flags &&& tcpSYN ≠ 0 ∧ flags &&& tcpACK = 0 then
            let r := handleSYN dial now tbl key seqNum
            ⟨r.table, r.emitted, r.dialed, [], [], r.err⟩
          else
            match lookupConn tbl key with
            | none => ⟨tbl, [], [], [], [], false⟩
            | some conn =>
              let conn' := { conn with
                lastActive := now
                seqNum := seqNum
                ackNum := ackNum }
              let tbl' := insertConn tbl key conn'
              match conn.socksConn with
              | none => ⟨tbl', [], [], [], [], false⟩
              | some sid =>
                if payload = [] then ⟨tbl', [], [], [], [], false⟩
                else if writeOk sid then ⟨tbl', [], [], [], [(sid, payload)], false⟩
                else
                  let r := closeConn tbl' key
                  ⟨r.1, [], [], r.2, [(sid, payload)], true⟩

/-! ## Flow-table lemmas -/

theorem lookupConn_insertConn (tbl : List (ConnKey × TcpConn)) (key : ConnKey)
    (c : TcpConn) : lookupConn (insertConn tbl key c) key = some c := by
  induction tbl with
  | nil => simp [insertConn, lookupConn]
  | cons hd rest ih =>
    obtain ⟨k, c'⟩ := hd
    by_cases h : k = key
    · simp [insertConn, h, lookupConn]
    · simp [insertConn, h, lookupConn, ih]

theorem lookupConn_insertConn_ne (tbl : List (ConnKey × TcpConn)) (key k' : ConnKey)
    (c : TcpConn) (h : k' ≠ key) :
    lookupConn (insertConn tbl key c) k' = lookupConn tbl k' := by
  have hne : ¬key = k' := fun h2 => h h2.symm
  induction tbl with
  | nil => simp [insertConn, lookupConn, hne]
  | cons hd rest ih =>
    obtain ⟨k, c'⟩ := hd
    by_cases hk : k = key
    · subst hk
      simp [insertConn, lookupConn, hne]
    · simp only [insertConn, if_neg hk, lookupConn]
      by_cases hk' : k = k'
      · simp [hk']
      · simp [hk', ih]

/-! ## C1 — data segments synthesized by the reader task -/

/-- The flow key of the worked example: `10.0.0.5:40000 → 10.0.1.10:80`. -/
def c1key : ConnKey := ⟨167772165, 167772426, 40000, 80⟩

/-- A dial oracle that always succeeds with stream handle 1. -/
def c1dial : ConnKey → Option Nat := fun _ => some 1

/-- The flow record `handleSYN` installs for a SYN with sequence 12345. -/
def c1flow : TcpConn := ⟨c1key, some 1, 0, 12345, 12346, true, false⟩

/-- **C1 (counterexample)** — For the flow installed by `handleSYN` for a SYN
with sequence number 12345, the first 5-byte chunk from the SOCKS stream is
emitted with TCP sequence field 12346 and acknowledgment field 12345, and the
next 3-byte chunk with sequence field 12351 — not sequence 0 / ack 12346 and
then sequence 5 as the claim states. -/
theorem c1_counterexample :
    lookupConn (handleSYN c1dial 0 [] c1key 12345).table c1key = some c1flow ∧
    tcpSeqField (readChunkStep c1flow 1 [104, 101, 108, 108, 111]).2 = 12346 ∧
    tcpAckField (readChunkStep c1flow 1 [104, 101, 108, 108, 111]).2 = 12345 ∧
    tcpSeqField (readChunkStep (readChunkStep c1flow 1
      [104, 101, 108, 108, 111]).1 2 [119, 101, 98]).2 = 12351 ∧
    ¬(tcpSeqField (readChunkStep c1flow 1 [104, 101, 108, 108, 111]).2 = 0 ∧
      tcpAckField (readChunkStep c1flow 1 [104, 101, 108, 108, 111]).2 = 12346) := by
  refine ⟨by decide, by decide, by decide, by decide, ?_⟩
  intro h
  have := h.1
  revert this
  decide

/-- **C1 (amended)** — For every established flow, each non-empty chunk of
`n` bytes read from the flow's SOCKS stream causes exactly one PSH|ACK segment
on the virtual interface whose TCP sequence-number field equals the flow's
stored `ackNum` (initialized by `handleSYN` to the observed SYN sequence + 1
mod 2^32, not to 0) and whose acknowledgment field equals the flow's stored
`seqNum` (initialized to the observed SYN sequence itself), with `ackNum` —
the state reused as the outgoing sequence number — advanced by exactly `n`
(mod 2^32) afterwards.  In particular a flow created by a SYN with sequence
12345 emits its first 5-byte chunk with seq 12346 and ack 12345 and the next
3-byte chunk with seq 12351. -/
theorem c1_amended :
    (∀ (c : TcpConn) (now : Nat) (ch : List Nat), ch ≠ [] →
      c.ackNum < 2 ^ 32 → c.seqNum < 2 ^ 32 →
      tcpSeqField (readChunkStep c now ch).2 = c.ackNum ∧
      tcpAckField (readChunkStep c now ch).2 = c.seqNum ∧
      tcpFlagsField (readChunkStep c now ch).2 = tcpPSH ||| tcpACK ∧
      tcpPayloadOf (readChunkStep c now ch).2 = ch ∧
      (readChunkStep c now ch).1.ackNum = (c.ackNum + ch.length) % 2 ^ 32 ∧
      (readChunkStep c now ch).1.seqNum = c.seqNum) ∧
    (∀ (dial : ConnKey → Option Nat) (now : Nat) (tbl : List (ConnKey × TcpConn))
        (key : ConnKey) (s sid : Nat), dial key = some sid →
      lookupConn (handleSYN dial now tbl key s).table key
        = some ⟨key, some sid, now, s, (s + 1) % 2 ^ 32, true, false⟩) ∧
    (∀ (c : TcpConn) (now : Nat) (chunks : List (List Nat)),
      ((readChunks c now chunks).2).length
        = (chunks.filter (fun ch => !ch.isEmpty)).length) := by
  refine ⟨?_, ?_, ?_⟩
  · intro c now ch _ hack hseq
    have hb24 : byteAt (readChunkStep c now ch).2 24 = c.ackNum / 2 ^ 24 % 256 := rfl
    have hb25 : byteAt (readChunkStep c now ch).2 25 = c.ackNum / 2 ^ 16 % 256 := rfl
    have hb26 : byteAt (readChunkStep c now ch).2 26 = c.ackNum / 2 ^ 8 % 256 := rfl
    have hb27 : byteAt (readChunkStep c now ch).2 27 = c.ackNum % 256 := rfl
    have hb28 : byteAt (readChunkStep c now ch).2 28 = c.seqNum / 2 ^ 24 % 256 := rfl
    have hb29 : byteAt (readChunkStep c now ch).2 29 = c.seqNum / 2 ^ 16 % 256 := rfl
    have hb30 : byteAt (readChunkStep c now ch).2 30 = c.seqNum / 2 ^ 8 % 256 := rfl
    have hb31 : byteAt (readChunkStep c now ch).2 31 = c.seqNum % 256 := rfl
    refine ⟨?_, ?_, rfl, ?_, rfl, rfl⟩
    · rw [tcpSeqField, hb24, hb25, hb26, hb27, be32]
      omega
    · rw [tcpAckField, hb28, hb29, hb30, hb31, be32]
      omega
    · have hp : (readChunkStep c now ch).2
          = buildTCPPacket (uint32ToIP c.key.dstIP) c.key.dstPort
              (uint32ToIP c.key.srcIP) c.key.srcPort
              c.ackNum c.seqNum (tcpPSH ||| tcpACK) ch := rfl
      rw [tcpPayloadOf, hp, show (40 : Nat) = 20 + 20 from rfl,
        ← List.drop_drop, drop20_buildTCPPacket]
      exact List.drop_left' (tcpHeaderBytes_length _ _ _ _ _ _)
  · intro dial now tbl key s sid hdial
    rw [handleSYN, hdial]
    exact lookupConn_insertConn tbl key _
  · intro c now chunks
    induction chunks generalizing c with
    | nil => simp [readChunks]
    | cons ch rest ih =>
      by_cases h : ch = []
      · have he : ch.isEmpty = true := by simp [h]
        simp [readChunks, h, ih, List.filter_cons, he]
      · have he : ch.isEmpty = false := by simpa using h
        simp [readChunks, h, ih, List.filter_cons, he]

/-- Witness for the amended C1 at the concrete worked example. -/
theorem c1_amended_witness :
    tcpSeqField (readChunkStep c1flow 1 [104, 101, 108, 108, 111]).2
        = c1flow.ackNum ∧
    tcpAckField (readChunkStep c1flow 1 [104, 101, 108, 108, 111]).2
        = c1flow.seqNum ∧
    lookupConn (handleSYN c1dial 0 [] c1key 12345).table c1key
        = some ⟨c1key, some 1, 0, 12345, (12345 + 1) % 2 ^ 32, true, false⟩ := by
  have h1 := c1_amended.1 c1flow 1 [104, 101, 108, 108, 111] (by decide)
    (by decide) (by decide)
  have h2 := c1_amended.2.1 c1dial 0 [] c1key 12345 1 rfl
  exact ⟨h1.1, h1.2.1, h2⟩

/-! ## C4 — SYN handling for a new flow -/

/-- **C4** — For every TCP segment with SYN set and ACK clear for a flow key
not in the table: if the SOCKS dial succeeds, exactly one SYN-ACK is emitted
with acknowledgment number `observed_seq + 1` and initial sequence number 0,
and a flow keyed by the 5-tuple is installed in the table before the handler
returns; if the SOCKS dial fails, no flow is installed and no packet is
emitted (the SYN is dropped silently, surfacing only the error). -/
theorem c4_syn_handling (dial : ConnKey → Option Nat) (now : Nat)
    (tbl : List (ConnKey × TcpConn)) (key : ConnKey) (s : Nat)
    (hnew : lookupConn tbl key = none) (hs : s + 1 < 2 ^ 32) :
    (∀ sid, dial key = some sid →
      (handleSYN dial now tbl key s).emitted = [sendSYNACK key s] ∧
      tcpSeqField (sendSYNACK key s) = 0 ∧
      tcpAckField (sendSYNACK key s) = s + 1 ∧
      tcpFlagsField (sendSYNACK key s) = tcpSYN ||| tcpACK ∧
      lookupConn (handleSYN dial now tbl key s).table key
        = some ⟨key, some sid, now, s, (s + 1) % 2 ^ 32, true, false⟩ ∧
      (handleSYN dial now tbl key s).err = false) ∧
    (dial key = none →
      (handleSYN dial now tbl key s).table = tbl ∧
      (handleSYN dial now tbl key s).emitted = [] ∧
      (handleSYN dial now tbl key s).err = true) := by
  constructor
  · intro sid hdial
    have hb24 : byteAt (sendSYNACK key s) 24 = 0 := rfl
    have hb25 : byteAt (sendSYNACK key s) 25 = 0 := rfl
    have hb26 : byteAt (sendSYNACK key s) 26 = 0 := rfl
    have hb27 : byteAt (sendSYNACK key s) 27 = 0 := rfl
    have hb28 : byteAt (sendSYNACK key s) 28 = (s + 1) % 2 ^ 32 / 2 ^ 24 % 256 := rfl
    have hb29 : byteAt (sendSYNACK key s) 29 = (s + 1) % 2 ^ 32 / 2 ^ 16 % 256 := rfl
    have hb30 : byteAt (sendSYNACK key s) 30 = (s + 1) % 2 ^ 32 / 2 ^ 8 % 256 := rfl
    have hb31 : byteAt (sendSYNACK key s) 31 = (s + 1) % 2 ^ 32 % 256 := rfl
    refine ⟨?_, ?_, ?_, rfl, ?_, ?_⟩
    · rw [handleSYN, hdial]
    · rw [tcpSeqField, hb24, hb25, hb26, hb27, be32]
      norm_num
    · rw [tcpAckField, hb28, hb29, hb30, hb31, be32]
      omega
    · rw [handleSYN, hdial]
      exact lookupConn_insertConn tbl key _
    · rw [handleSYN, hdial]
  · intro hdial
    rw [handleSYN, hdial]
    exact ⟨rfl, rfl, rfl⟩

/-- Witness for C4: an empty table, a dial oracle succeeding with handle 3,
and a SYN with sequence 12345. -/
theorem c4_syn_handling_witness :
    (handleSYN (fun _ => some 3) 0 [] c1key 12345).emitted
        = [sendSYNACK c1key 12345] ∧
    tcpSeqField (sendSYNACK c1key 12345) = 0 ∧
    tcpAckField (sendSYNACK c1key 12345) = 12346 := by
  have h := (c4_syn_handling (fun _ => some 3) 0 [] c1key 12345 rfl
    (by norm_num)).1 3 rfl
  exact ⟨h.1, h.2.1, h.2.2.1⟩

/-! ## C3 — a SYN for an already-established flow -/

/-- Raw-packet accessors used to state the dispatch of `handlePacket`. -/
def rawIHL (p : List Nat) : Nat := byteAt p 0 % 16 * 4

/-- The TCP flags byte of a raw datagram. -/
def rawFlags (p : List Nat) : Nat := byteAt (p.drop (rawIHL p)) 13

/-- The TCP data offset (in bytes) of a raw datagram. -/
def rawDataOffset (p : List Nat) : Nat := byteAt (p.drop (rawIHL p)) 12 / 16 * 4

/-- The TCP sequence number of a raw datagram. -/
def rawSeq (p : List Nat) : Nat :=
  be32 (byteAt (p.drop (rawIHL p)) 4) (byteAt (p.drop (rawIHL p)) 5)
    (byteAt (p.drop (rawIHL p)) 6) (byteAt (p.drop (rawIHL p)) 7)

/-- The flow key of a raw datagram. -/
def rawKey (p : List Nat) : ConnKey :=
  ⟨be32 (byteAt p 12) (byteAt p 13) (byteAt p 14) (byteAt p 15),
    be32 (byteAt p 16) (byteAt p 17) (byteAt p 18) (byteAt p 19),
    be16 (byteAt (p.drop (rawIHL p)) 0) (byteAt (p.drop (rawIHL p)) 1),
    be16 (byteAt (p.drop (rawIHL p)) 2) (byteAt (p.drop (rawIHL p)) 3)⟩

/-- On a well-formed TCP datagram whose flags have SYN set and RST, FIN and
ACK clear, `handlePacket` reduces to `handleSYN` — regardless of whether the
key is already present in the flow table. -/
theorem handlePacket_syn_dispatch (dial : ConnKey → Option Nat)
    (writeOk : Nat → Bool) (now : Nat) (tbl : List (ConnKey × TcpConn))
    (p : List Nat)
    (h1 : ¬(p.length < 20 ∨ byteAt p 0 / 16 ≠ 4))
    (h2 : ¬(p.length < rawIHL p ∨ rawIHL p < 20))
    (h3 : byteAt p 9 = 6)
    (h4 : ¬(p.length < rawIHL p + 20))
    (h5 : ¬((p.drop (rawIHL p)).length < rawDataOffset p))
    (hrst : rawFlags p &&& tcpRST = 0)
    (hfin : rawFlags p &&& tcpFIN = 0)
    (hsyn : rawFlags p &&& tcpSYN ≠ 0)
    (hackf : rawFlags p &&& tcpACK = 0) :
    handlePacket dial writeOk now tbl p =
      { table := (handleSYN dial now tbl (rawKey p) (rawSeq p)).table
        emitted := (handleSYN dial now tbl (rawKey p) (rawSeq p)).emitted
        dialed := (handleSYN dial now tbl (rawKey p) (rawSeq p)).dialed
        closedSocks := []
        socksWrites := []
        err := (handleSYN dial now tbl (rawKey p) (rawSeq p)).err } := by
  rw [rawIHL] at h2 h4
  rw [rawFlags, rawIHL] at hrst hfin hsyn hackf
  rw [rawDataOffset] at h5
  rw [rawIHL] at h5
  simp only [handlePacket]
  rw [if_neg h1, if_neg h2, if_neg (not_not_intro h3), if_neg h4, if_neg h5,
    if_neg (not_not_intro hrst), if_neg (not_not_intro hfin),
    if_pos (And.intro hsyn hackf)]
  rfl

/-- The flow already established before the duplicate SYN arrives. -/
def c3oldConn : TcpConn := ⟨c1key, some 7, 0, 111, 222, true, false⟩

/-- A 40-byte IPv4 TCP datagram, flags = SYN only, `10.0.0.5:40000 →
10.0.1.10:80`, sequence 12345. -/
def c3synPacket : List Nat :=
  [0x45, 0, 0, 40, 0, 0, 0, 0, 64, 6, 0, 0, 10, 0, 0, 5, 10, 0, 1, 10,
    156, 64, 0, 80, 0, 0, 48, 57, 0, 0, 0, 0, 0x50, 0x02, 255, 255, 0, 0, 0, 0]

/-- **C3 (counterexample)** — With flow `10.0.0.5:40000 → 10.0.1.10:80`
already in the table (egress stream 7), a further SYN-only segment for the
same key with sequence 12345 performs a new SOCKS dial, emits a packet, and
replaces the table entry with a fresh flow on stream 8 — the claim that the
entry, its stream and its sequence state are left unchanged with no dial and
no emission is false. -/
theorem c3_counterexample :
    lookupConn [(c1key, c3oldConn)] c1key = some c3oldConn ∧
    (handlePacket (fun _ => some 8) (fun _ => true) 5 [(c1key, c3oldConn)]
      c3synPacket).dialed = [c1key] ∧
    (handlePacket (fun _ => some 8) (fun _ => true) 5 [(c1key, c3oldConn)]
      c3synPacket).emitted.length = 1 ∧
    lookupConn (handlePacket (fun _ => some 8) (fun _ => true) 5
      [(c1key, c3oldConn)] c3synPacket).table c1key
      = some ⟨c1key, some 8, 5, 12345, 12346, true, false⟩ ∧
    ¬(lookupConn (handlePacket (fun _ => some 8) (fun _ => true) 5
      [(c1key, c3oldConn)] c3synPacket).table c1key = some c3oldConn) := by
  refine ⟨by decide, by decide, by decide, by decide, by decide⟩

/-- **C3 (amended)** — For every flow key already present in the flow table,
processing a further TCP segment with SYN set and ACK clear for that key goes
through `handleSYN` again: a new outbound SOCKS dial is attempted; on success
the table entry is replaced by a fresh flow (new egress stream, sequence/ack
state reinitialized from the new SYN) and one new SYN-ACK is emitted, while
the displaced flow's egress stream is never closed; on dial failure the
existing entry is left undisturbed and nothing is emitted.  Entries under
other keys are unaffected. -/
theorem c3_amended (dial : ConnKey → Option Nat) (writeOk : Nat → Bool)
    (now : Nat) (tbl : List (ConnKey × TcpConn)) (p : List Nat) (c0 : TcpConn)
    (h1 : ¬(p.length < 20 ∨ byteAt p 0 / 16 ≠ 4))
    (h2 : ¬(p.length < rawIHL p ∨ rawIHL p < 20))
    (h3 : byteAt p 9 = 6)
    (h4 : ¬(p.length < rawIHL p + 20))
    (h5 : ¬((p.drop (rawIHL p)).length < rawDataOffset p))
    (hrst : rawFlags p &&& tcpRST = 0)
    (hfin : rawFlags p &&& tcpFIN = 0)
    (hsyn : rawFlags p &&& tcpSYN ≠ 0)
    (hackf : rawFlags p &&& tcpACK = 0)
    (hold : lookupConn tbl (rawKey p) = some c0) :
    (handlePacket dial writeOk now tbl p).dialed = [rawKey p] ∧
    (handlePacket dial writeOk now tbl p).closedSocks = [] ∧
    (∀ sid, dial (rawKey p) = some sid →
      lookupConn (handlePacket dial writeOk now tbl p).table (rawKey p)
        = some ⟨rawKey p, some sid, now, rawSeq p, (rawSeq p + 1) % 2 ^ 32,
            true, false⟩ ∧
      (handlePacket dial writeOk now tbl p).emitted
        = [sendSYNACK (rawKey p) (rawSeq p)] ∧
      (∀ k', k' ≠ rawKey p →
        lookupConn (handlePacket dial writeOk now tbl p).table k'
          = lookupConn tbl k')) ∧
    (dial (rawKey p) = none →
      (handlePacket dial writeOk now tbl p).table = tbl ∧
      (handlePacket dial writeOk now tbl p).emitted = []) := by
  rw [handlePacket_syn_dispatch dial writeOk now tbl p h1 h2 h3 h4 h5 hrst hfin
    hsyn hackf]
  refine ⟨?_, rfl, ?_, ?_⟩
  · cases hd : dial (rawKey p) <;> simp [handleSYN, hd]
  · intro sid hdial
    rw [handleSYN, hdial]
    exact ⟨lookupConn_insertConn tbl _ _, rfl,
      fun k' hk' => lookupConn_insertConn_ne tbl _ k' _ hk'⟩
  · intro hdial
    rw [handleSYN, hdial]
    exact ⟨rfl, rfl⟩

/-- Witness for the amended C3 at the concrete duplicate-SYN example. -/
theorem c3_amended_witness :
    (handlePacket (fun _ => some 8) (fun _ => true) 5 [(c1key, c3oldConn)]
      c3synPacket).dialed = [rawKey c3synPacket] ∧
    lookupConn (handlePacket (fun _ => some 8) (fun _ => true) 5
      [(c1key, c3oldConn)] c3synPacket).table (rawKey c3synPacket)
      = some ⟨rawKey c3synPacket, some 8, 5, rawSeq c3synPacket,
          (rawSeq c3synPacket + 1) % 2 ^ 32, true, false⟩ := by
  have h := c3_amended (fun _ => some 8) (fun _ => true) 5 [(c1key, c3oldConn)]
    c3synPacket c3oldConn (by decide) (by decide) (by decide) (by decide)
    (by decide) (by decide) (by decide) (by decide) (by decide) (by decide)
  exact ⟨h.1, (h.2.2.1 8 rfl).1⟩

/-! ## C10 — idempotent close -/

/-- Repeated invocations of `tcpConn.close`, accumulating the handles on which
the egress stream's `Close` was invoked. -/
def closeIter (c : TcpConn) : Nat → TcpConn × List Nat
  | 0 => (c, [])
  | n + 1 =>
    let r := closeTcpConn c
    let r2 := closeIter r.1 n
    (r2.1, r.2 ++ r2.2)

theorem closeTcpConn_of_closing {c : TcpConn} (h : c.closing = true) :
    closeTcpConn c = (c, []) := by
  rw [closeTcpConn, if_pos h]

theorem closeTcpConn_closing (c : TcpConn) : (closeTcpConn c).1.closing = true := by
  by_cases h : c.closing = true
  · rw [closeTcpConn_of_closing h]
    exact h
  · rw [closeTcpConn, if_neg h]

theorem closeIter_of_closing {c : TcpConn} (h : c.closing = true) (n : Nat) :
    closeIter c n = (c, []) := by
  induction n with
  | zero => rfl
  | succ n ih => simp [closeIter, closeTcpConn_of_closing h, ih]

/-- **C10** — Closing a flow is idempotent: invoking the tracker's
`closeConn` for a key absent from the table is a no-op that leaves the table
unchanged and closes no stream, and `tcpConn.close` sets the closing flag so
that over any number of close attempts the underlying egress stream's `Close`
is invoked at most once. -/
theorem c10_close_idempotent :
    (∀ (tbl : List (ConnKey × TcpConn)) (key : ConnKey),
      lookupConn tbl key = none → closeConn tbl key = (tbl, [])) ∧
    (∀ c : TcpConn, (closeTcpConn c).1.closing = true ∧
      (c.closing = true → closeTcpConn c = (c, [])) ∧
      closeTcpConn (closeTcpConn c).1 = ((closeTcpConn c).1, [])) ∧
    (∀ (c : TcpConn) (n : Nat), (closeIter c n).2.length ≤ 1) := by
  refine ⟨?_, ?_, ?_⟩
  · intro tbl key h
    rw [closeConn, h]
  · intro c
    refine ⟨closeTcpConn_closing c, fun h => closeTcpConn_of_closing h,
      closeTcpConn_of_closing (closeTcpConn_closing c)⟩
  · intro c n
    match n with
    | 0 => simp [closeIter]
    | n + 1 =>
      simp only [closeIter]
      rw [closeIter_of_closing (closeTcpConn_closing c) n]
      by_cases h : c.closing = true
      · rw [closeTcpConn_of_closing h]
        simp
      · rw [closeTcpConn, if_neg h]
        cases c.socksConn <;> simp

/-- Witness for C10: closing an absent key in a one-entry table, and closing
an open connection three times closes its stream exactly once. -/
theorem c10_close_idempotent_witness :
    closeConn [(c1key, c3oldConn)] ⟨1, 2, 3, 4⟩ = ([(c1key, c3oldConn)], []) ∧
    (closeIter c3oldConn 3).2.length ≤ 1 := by
  exact ⟨c10_close_idempotent.1 [(c1key, c3oldConn)] ⟨1, 2, 3, 4⟩ (by decide),
    c10_close_idempotent.2.2 c3oldConn 3⟩

/-! ## C7 — reads from the virtual interface (`tun_darwin.go`) -/

/-- `TunDevice.Read` (`tun_darwin.go:141-156`): given the raw bytes returned
by the kernel read, fail when fewer than 4 bytes arrived (the formatted byte
count of the Go error message is elided), otherwise strip the 4-byte
address-family framing and deliver the rest. -/
def tunRead (raw : List Nat) : Except String (List Nat) :=
  if raw.length < 4 then Except.error "packet too small"
  else Except.ok (raw.drop 4)

/-- One iteration of the forwarder's read loop (`tun_to_socks.go:140-163`):
a `tunRead` error makes the loop retry (`none`); a delivered datagram shorter
than 20 bytes is silently skipped (`if n < 20 { continue }`); otherwise the
datagram is handed to `handlePacket` (`some`). -/
def readPacketsStep (raw : List Nat) : Option (List Nat) :=
  match tunRead raw with
  | Except.error _ => none
  | Except.ok pkt => if pkt.length < 20 then none else some pkt

/-- **C7 (counterexample)** — A 10-byte kernel read (4 bytes of framing plus a
6-byte truncated header, fewer than the claimed 24-byte minimum) makes `Read`
return the truncated 6-byte datagram successfully instead of an error. -/
theorem c7_counterexample :
    [0, 0, 0, 2, 1, 2, 3, 4, 5, 6].length < 24 ∧
    tunRead [0, 0, 0, 2, 1, 2, 3, 4, 5, 6] = Except.ok [1, 2, 3, 4, 5, 6] ∧
    ∀ e, tunRead [0, 0, 0, 2, 1, 2, 3, 4, 5, 6] ≠ Except.error e := by
  refine ⟨by decide, by rfl, ?_⟩
  intro e
  simp [tunRead]

/-- **C7 (amended)** — `Read` returns an error exactly when the underlying
read yields fewer than 4 bytes; any read of at least 4 bytes returns the
datagram with the 4-byte framing stripped, even when the result is shorter
than a 20-byte IPv4 header.  The forwarder's read loop separately skips —
without treating it as an error — any delivered datagram shorter than 20
bytes, and processes reads of at least 24 bytes. -/
theorem c7_amended (raw : List Nat) :
    (raw.length < 4 → tunRead raw = Except.error "packet too small") ∧
    (4 ≤ raw.length → tunRead raw = Except.ok (raw.drop 4)) ∧
    (4 ≤ raw.length → raw.length < 24 → readPacketsStep raw = none) ∧
    (24 ≤ raw.length → readPacketsStep raw = some (raw.drop 4)) := by
  refine ⟨?_, ?_, ?_, ?_⟩
  · intro h
    rw [tunRead, if_pos h]
  · intro h
    rw [tunRead, if_neg (by omega)]
  · intro h h24
    rw [readPacketsStep, tunRead, if_neg (by omega)]
    simp only []
    rw [if_pos (by rw [List.length_drop]; omega)]
  · intro h
    rw [readPacketsStep, tunRead, if_neg (by omega)]
    simp only []
    rw [if_neg (by rw [List.length_drop]; omega)]

/-- Witness for the amended C7 on a 2-byte, a 10-byte and a 24-byte read. -/
theorem c7_amended_witness :
    tunRead [0, 2] = Except.error "packet too small" ∧
    readPacketsStep [0, 0, 0, 2, 1, 2, 3, 4, 5, 6] = none ∧
    readPacketsStep [0, 0, 0, 2, 69, 0, 0, 20, 0, 0, 0, 0, 64, 6, 0, 0,
      10, 0, 0, 5, 10, 0, 1, 10]
      = some [69, 0, 0, 20, 0, 0, 0, 0, 64, 6, 0, 0, 10, 0, 0, 5, 10, 0, 1, 10] := by
  refine ⟨(c7_amended [0, 2]).1 (by decide), ?_, ?_⟩
  · have h := (c7_amended [0, 0, 0, 2, 1, 2, 3, 4, 5, 6]).2.2.1 (by decide) (by decide)
    exact h
  · have h := (c7_amended [0, 0, 0, 2, 69, 0, 0, 20, 0, 0, 0, 0, 64, 6, 0, 0,
      10, 0, 0, 5, 10, 0, 1, 10]).2.2.2 (by decide)
    exact h

/-! ## C8 — the DNS suffix filter (`resolver.go: ShouldHandle`)

Domain strings are modelled as their byte lists.  `strings.ToLower` is
modelled on the ASCII range (DNS names in queries are ASCII); byte 46 is
`'.'`. -/

/-- `strings.ToLower` on ASCII bytes. -/
def toLowerB (s : List Nat) : List Nat :=
  s.map fun b => if 65 ≤ b ∧ b ≤ 90 then b + 32 else b

/-- `strings.TrimSuffix(s, ".")`: remove one trailing dot if present. -/
def trimSuffixDot (s : List Nat) : List Nat :=
  if s.getLast? = some 46 then s.dropLast else s

/-- `strings.TrimPrefix(s, ".")`: remove one leading dot if present. -/
def trimPrefixDot : List Nat → List Nat
  | 46 :: rest => rest
  | s => s

/-- `Resolver.ShouldHandle` (`resolver.go:75-101`): handle everything when no
suffixes are configured; otherwise lower-case and trim the domain once, and
for each configured suffix (lower-cased, trailing then leading dot trimmed)
accept on exact match, on a dot-anchored suffix match, or — whenever the
*first* configured entry begins with a dot — on a plain string-suffix match. -/
def ShouldHandle (domains : List (List Nat)) (domain : List Nat) : Bool :=
  if domains.isEmpty then true
  else
    let d := toLowerB (trimSuffixDot domain)
    domains.any fun suffix =>
      let suf := toLowerB (trimPrefixDot (trimSuffixDot suffix))
      d == suf || (46 :: suf).isSuffixOf d ||
        ([46].isPrefixOf (domains.headD []) && suf.isSuffixOf d)

/-- The filter the claim describes, written from the spec's words: true iff
the suffix list is empty or the QNAME ends with one of the suffixes
(case-insensitively, at a label boundary), a suffix with a leading dot being
treated identically to the same suffix without it. -/
def shouldHandleClaim (domains : List (List Nat)) (domain : List Nat) : Bool :=
  domains.isEmpty ||
    domains.any fun suffix =>
      let suf := toLowerB (trimPrefixDot suffix)
      let d := toLowerB domain
      d == suf || (46 :: suf).isSuffixOf d

/-- **C8 (counterexample)** — With suffix list `[".corp"]` the code handles
the query name `foocorp` (the leading dot on the first entry enables plain
string-suffix matching), while with the equivalent-per-the-claim list
`["corp"]` it does not; the claim's own predicate rejects `foocorp` in both
cases.  So `ShouldHandle` differs from the claimed filter and the leading-dot
form is not treated identically to the dotless form. -/
theorem c8_counterexample :
    ShouldHandle [[46, 99, 111, 114, 112]] [102, 111, 111, 99, 111, 114, 112]
        = true ∧
    ShouldHandle [[99, 111, 114, 112]] [102, 111, 111, 99, 111, 114, 112]
        = false ∧
    shouldHandleClaim [[46, 99, 111, 114, 112]]
        [102, 111, 111, 99, 111, 114, 112] = false ∧
    ¬(ShouldHandle [[46, 99, 111, 114, 112]] [102, 111, 111, 99, 111, 114, 112]
        = shouldHandleClaim [[46, 99, 111, 114, 112]]
            [102, 111, 111, 99, 111, 114, 112]) := by
  refine ⟨by decide, by decide, by decide, by decide⟩

/-- `[46].isPrefixOf l` means `l` starts with a dot. -/
theorem isPrefixOf_dot (l : List Nat) :
    [46].isPrefixOf l = true ↔ ∃ t, l = 46 :: t := by
  cases l with
  | nil => simp [List.isPrefixOf]
  | cons a t =>
    constructor
    · intro h
      have h46 : 46 = a := by simpa [List.isPrefixOf, beq_iff_eq] using h
      exact ⟨t, by rw [← h46]⟩
    · rintro ⟨t', ht⟩
      rw [List.cons_eq_cons] at ht
      rw [ht.1]
      simp [List.isPrefixOf]

/-- **C8 (amended)** — `ShouldHandle` returns true exactly when the suffix
list is empty, or for some configured suffix — lower-cased, with one trailing
and then one leading dot stripped — the lower-cased, trailing-dot-stripped
QNAME equals it or ends with it preceded by a dot, or the *first* configured
entry starts with a dot and the QNAME ends with the suffix as a plain string
(so a leading dot on the first entry changes the matching rule for every
entry, rather than being equivalent to the dotless form). -/
theorem c8_amended (domains : List (List Nat)) (domain : List Nat) :
    ShouldHandle domains domain = true ↔
      domains = [] ∨
      ∃ suffix ∈ domains,
        toLowerB (trimSuffixDot domain)
            = toLowerB (trimPrefixDot (trimSuffixDot suffix)) ∨
        (46 :: toLowerB (trimPrefixDot (trimSuffixDot suffix)))
            <:+ toLowerB (trimSuffixDot domain) ∨
        ((∃ t, domains.headD [] = 46 :: t) ∧
          toLowerB (trimPrefixDot (trimSuffixDot suffix))
            <:+ toLowerB (trimSuffixDot domain)) := by
  rw [ShouldHandle]
  by_cases he : domains.isEmpty
  · simp only [if_pos he]
    simp [List.isEmpty_iff.mp he]
  · rw [if_neg he]
    simp only [List.any_eq_true, Bool.or_eq_true, beq_iff_eq, Bool.and_eq_true,
      List.isSuffixOf_iff_suffix, isPrefixOf_dot]
    constructor
    · rintro ⟨suffix, hmem, h⟩
      refine Or.inr ⟨suffix, hmem, ?_⟩
      rcases h with (h | h) | ⟨hdot, hsuf⟩
      · exact Or.inl h
      · exact Or.inr (Or.inl h)
      · exact Or.inr (Or.inr ⟨hdot, hsuf⟩)
    · rintro (h | ⟨suffix, hmem, h⟩)
      · exact absurd (by simp [h]) he
      · refine ⟨suffix, hmem, ?_⟩
        rcases h with h | h | ⟨hdot, hsuf⟩
        · exact Or.inl (Or.inl h)
        · exact Or.inl (Or.inr h)
        · exact Or.inr ⟨hdot, hsuf⟩

/-! ## C6 — route installation and rollback (`routing/router.go`, `runStart`)

CIDR strings are abstract tokens (`Nat`).  The OS `route` commands are an
oracle: `parseOk c` — whether `parseCIDR` accepts the token; `addOk c` —
whether `route add` succeeds; `delOk c` — whether `route delete` succeeds on
an installed route (an absent route makes `route delete` fail with "not in
table", which `Cleanup` treats as success).  The kernel routing table is the
list of installed tokens; a successful `route add` prepends the token, a
successful `route delete` erases its first occurrence. -/

structure RouteEnv where
  parseOk : Nat → Bool
  addOk : Nat → Bool
  delOk : Nat → Bool

/-- `Router.AddRoute`: fail on an unparsable CIDR or a failing `route add`
command (leaving kernel and tracking untouched); on success install the route
and record it in `r.routes`.  Returns (kernel table, tracked routes, ok). -/
def addRoute (env : RouteEnv) (sys tracked : List Nat) (cidr : Nat) :
    List Nat × List Nat × Bool :=
  if ¬env.parseOk cidr then (sys, tracked, false)
  else if ¬env.addOk cidr then (sys, tracked, false)
  else (cidr :: sys, cidr :: tracked, true)

/-- The effect on the kernel table of one `route delete` issued by `Cleanup`:
remove the route when present and the command succeeds; a failing command or
an absent route ("not in table", ignored) leaves the table unchanged. -/
def deleteOne (env : RouteEnv) (sys : List Nat) (cidr : Nat) : List Nat :=
  if cidr ∈ sys ∧ env.delOk cidr then sys.erase cidr else sys

/-- `Router.Cleanup`: delete every tracked route and clear the tracking set
(the tracking set is cleared even when individual deletes fail). -/
def cleanupRoutes (env : RouteEnv) (sys tracked : List Nat) : List Nat × List Nat :=
  (tracked.foldl (deleteOne env) sys, [])

/-- The route-installation loop of `runStart` (`cmd/ssm-proxy/main.go`):
add each prefix in turn; on the first failure call `router.Cleanup()` and
return the error.  Returns (kernel table, tracked routes, ok). -/
def installAux (env : RouteEnv) (sys tracked : List Nat) :
    List Nat → List Nat × List Nat × Bool
  | [] => (sys, tracked, true)
  | c :: rest =>
    let r := addRoute env sys tracked c
    if r.2.2 then installAux env r.1 r.2.1 rest
    else
      let s2 := cleanupRoutes env r.1 r.2.1
      (s2.1, s2.2, false)

/-- Route installation as `runStart` performs it, starting from a fresh
`Router` (empty tracking set). -/
def installRoutes (env : RouteEnv) (sys : List Nat) (cidrs : List Nat) :
    List Nat × List Nat × Bool :=
  installAux env sys [] cidrs

theorem cleanupRoutes_cons (env : RouteEnv) (sys tracked : List Nat) (c : Nat)
    (hdel : env.delOk c = true) :
    cleanupRoutes env (c :: sys) (c :: tracked) = cleanupRoutes env sys tracked := by
  simp [cleanupRoutes, List.foldl_cons, deleteOne, hdel, List.erase_cons_head]

theorem installAux_fail (env : RouteEnv) (hdel : ∀ c, env.delOk c = true) :
    ∀ (cidrs : List Nat) (sys tracked : List Nat),
      (installAux env sys tracked cidrs).2.2 = false →
      (installAux env sys tracked cidrs).1 = (cleanupRoutes env sys tracked).1 := by
  intro cidrs
  induction cidrs with
  | nil => intro sys tracked h; simp [installAux] at h
  | cons c rest ih =>
    intro sys tracked h
    by_cases hp : env.parseOk c = true
    · by_cases ha : env.addOk c = true
      · have hstep : addRoute env sys tracked c = (c :: sys, c :: tracked, true) := by
          simp [addRoute, hp, ha]
        rw [installAux] at h ⊢
        rw [hstep] at h ⊢
        simp only [if_true] at h ⊢
        rw [ih _ _ h, cleanupRoutes_cons env sys tracked c (hdel c)]
      · have hstep : addRoute env sys tracked c = (sys, tracked, false) := by
          simp [addRoute, hp, ha]
        rw [installAux, hstep]
        simp
    · have hstep : addRoute env sys tracked c = (sys, tracked, false) := by
        simp [addRoute, hp]
      rw [installAux, hstep]
      simp

theorem installAux_success (env : RouteEnv) :
    ∀ (cidrs : List Nat) (sys tracked : List Nat),
      (installAux env sys tracked cidrs).2.2 = true →
      (installAux env sys tracked cidrs).1 = cidrs.reverse ++ sys := by
  intro cidrs
  induction cidrs with
  | nil => intro sys tracked _; simp [installAux]
  | cons c rest ih =>
    intro sys tracked h
    by_cases hp : env.parseOk c = true
    · by_cases ha : env.addOk c = true
      · have hstep : addRoute env sys tracked c = (c :: sys, c :: tracked, true) := by
          simp [addRoute, hp, ha]
        rw [installAux] at h ⊢
        rw [hstep] at h ⊢
        simp only [if_true] at h ⊢
        rw [ih _ _ h]
        simp
      · have hstep : addRoute env sys tracked c = (sys, tracked, false) := by
          simp [addRoute, hp, ha]
        rw [installAux, hstep] at h
        simp at h
    · have hstep : addRoute env sys tracked c = (sys, tracked, false) := by
        simp [addRoute, hp]
      rw [installAux, hstep] at h
      simp at h

/-- **C6** — For every sequence of route additions in which some addition
fails (whether or not earlier additions succeeded), all routes installed by
this run are removed before the error is returned, leaving the kernel routing
table exactly as it was; when every addition succeeds, all configured
prefixes are installed.  (Hypothesis: the rollback's `route delete` commands
succeed; `Cleanup` ignores "not in table".)  Route installation is therefore
all-or-nothing. -/
theorem c6_route_rollback (env : RouteEnv) (sys : List Nat) (cidrs : List Nat)
    (hdel : ∀ c, env.delOk c = true) :
    ((installRoutes env sys cidrs).2.2 = false →
      (installRoutes env sys cidrs).1 = sys) ∧
    ((installRoutes env sys cidrs).2.2 = true →
      (installRoutes env sys cidrs).1 = cidrs.reverse ++ sys) := by
  constructor
  · intro h
    rw [installRoutes] at h ⊢
    rw [installAux_fail env hdel cidrs sys [] h]
    simp [cleanupRoutes]
  · intro h
    rw [installRoutes] at h ⊢
    exact installAux_success env cidrs sys [] h

/-- Witness for C6: routes 1 and 2 install, route 3 fails to parse; the
kernel table (initially holding route 9) is restored exactly. -/
theorem c6_route_rollback_witness :
    (installRoutes ⟨fun c => c ≠ 3, fun _ => true, fun _ => true⟩ [9]
      [1, 2, 3]).2.2 = false ∧
    (installRoutes ⟨fun c => c ≠ 3, fun _ => true, fun _ => true⟩ [9]
      [1, 2, 3]).1 = [9] := by
  refine ⟨by decide, ?_⟩
  exact (c6_route_rollback ⟨fun c => c ≠ 3, fun _ => true, fun _ => true⟩ [9]
    [1, 2, 3] (fun _ => rfl)).1 (by decide)

/-! ## C9 — `Resolver.Query` and the response cache (`resolver.go`)

The upstream TCP connection through SOCKS is an oracle
`Option (List Nat → List Nat)`: `none` means the dial fails; otherwise the
function maps the bytes the resolver writes to the byte stream the peer sends
back.  A `Read` of `k` bytes consumes `min k remaining` bytes of the stream
and fails only when the stream is exhausted (EOF); a buffer byte not filled
by a short read keeps its zero value, exactly as Go's zeroed `make` buffers
do (`byteAt`'s out-of-range default). -/

/-- A cache entry: the response bytes and the expiry instant. -/
structure DnsCacheEntry where
  response : List Nat
  expires : Nat
  deriving DecidableEq, Repr

/-- Association lookup in the cache, keyed by the raw query bytes. -/
def lookupCache : List (List Nat × DnsCacheEntry) → List Nat → Option DnsCacheEntry
  | [], _ => none
  | (k, e) :: rest, key => if k = key then some e else lookupCache rest key

/-- `Resolver.addToCache`: store under the key, replacing any existing entry. -/
def addToCache : List (List Nat × DnsCacheEntry) → List Nat → DnsCacheEntry →
    List (List Nat × DnsCacheEntry)
  | [], key, e => [(key, e)]
  | (k, e') :: rest, key, e =>
    if k = key then (key, e) :: rest else (k, e') :: addToCache rest key e

/-- `Resolver.getFromCache`: a present entry is returned unless the current
instant is strictly after its expiry (`time.Now().After(entry.expires)`). -/
def getFromCache (cache : List (List Nat × DnsCacheEntry)) (now : Nat)
    (key : List Nat) : Option (List Nat) :=
  match lookupCache cache key with
  | none => none
  | some e => if now > e.expires then none else some e.response

/-- Result of one `Resolver.Query` call: the returned response (`none` for an
error), the cache afterwards, and how many upstream connections were opened. -/
structure QueryResult where
  response : Option (List Nat)
  cache : List (List Nat × DnsCacheEntry)
  dials : Nat
  deriving Repr

/-- `Resolver.Query` (`resolver.go:105-182`): serve from the cache when
possible; otherwise dial upstream, write the query prefixed with its 2-byte
big-endian length, read a 2-byte response length, read that many bytes in one
`Read` (taking what is available), and cache the result with a 60-second
expiry. -/
def query (upstream : Option (List Nat → List Nat)) (now : Nat)
    (cache : List (List Nat × DnsCacheEntry)) (queryData : List Nat) :
    QueryResult :=
  match getFromCache cache now queryData with
  | some resp => ⟨some resp, cache, 0⟩
  | none =>
    match upstream with
    | none => ⟨none, cache, 1⟩
    | some server =>
      let stream := server (put16 queryData.length ++ queryData)
      if stream.length = 0 then ⟨none, cache, 1⟩
      else
        let responseLen := byteAt stream 0 * 256 + byteAt stream 1
        let rest := stream.drop 2
        if responseLen = 0 then
          ⟨some [], addToCache cache queryData ⟨[], now + 60⟩, 1⟩
        else if rest.length = 0 then ⟨none, cache, 1⟩
        else
          let responseData := rest.take responseLen
          ⟨some responseData, addToCache cache queryData ⟨responseData, now + 60⟩, 1⟩

theorem lookupCache_addToCache (cache : List (List Nat × DnsCacheEntry))
    (key : List Nat) (e : DnsCacheEntry) :
    lookupCache (addToCache cache key e) key = some e := by
  induction cache with
  | nil => simp [addToCache, lookupCache]
  | cons hd rest ih =>
    obtain ⟨k, e'⟩ := hd
    by_cases h : k = key
    · simp [addToCache, h, lookupCache]
    · simp [addToCache, h, lookupCache, ih]

/-- **C9** — For every handled DNS query, the resolver writes the query
prefixed with its 2-byte big-endian length over a TCP stream, reads the
2-byte response length, reads exactly that many response bytes and returns
them, caching the result keyed by the exact query bytes with a 60-second
expiry; a second identical query arriving while the cached entry is unexpired
returns the same response bytes and opens no second upstream connection. -/
theorem c9_dns_query_cache (server : List Nat → List Nat) (now now2 : Nat)
    (cache0 : List (List Nat × DnsCacheEntry)) (q resp : List Nat)
    (hmiss : getFromCache cache0 now q = none)
    (hserver : server (put16 q.length ++ q) = put16 resp.length ++ resp)
    (hpos : 0 < resp.length) (hlt : resp.length < 65536)
    (hfresh : ¬now2 > now + 60) :
    (query (some server) now cache0 q).response = some resp ∧
    (query (some server) now cache0 q).dials = 1 ∧
    lookupCache (query (some server) now cache0 q).cache q
        = some ⟨resp, now + 60⟩ ∧
    (query (some server) now2 (query (some server) now cache0 q).cache q).response
        = some resp ∧
    (query (some server) now2 (query (some server) now cache0 q).cache q).dials
        = 0 := by
  have hstream : server (put16 q.length ++ q) = put16 resp.length ++ resp := hserver
  have hslen : (put16 resp.length ++ resp).length = 2 + resp.length := by
    simp [put16]
    omega
  have hb0 : byteAt (put16 resp.length ++ resp) 0 = resp.length / 256 % 256 := rfl
  have hb1 : byteAt (put16 resp.length ++ resp) 1 = resp.length % 256 := rfl
  have hrlen : byteAt (put16 resp.length ++ resp) 0 * 256
      + byteAt (put16 resp.length ++ resp) 1 = resp.length := by
    rw [hb0, hb1]
    omega
  have hdrop : (put16 resp.length ++ resp).drop 2 = resp := by
    simp [put16]
  have h1 : query (some server) now cache0 q
      = ⟨some resp, addToCache cache0 q ⟨resp, now + 60⟩, 1⟩ := by
    rw [query, hmiss]
    simp only [hstream]
    rw [if_neg (by omega), hrlen, if_neg (by omega), hdrop,
      if_neg (by omega)]
    rw [List.take_of_length_le (by omega)]
  have hc : lookupCache (addToCache cache0 q ⟨resp, now + 60⟩) q
      = some ⟨resp, now + 60⟩ := lookupCache_addToCache cache0 q _
  have hget : getFromCache (addToCache cache0 q ⟨resp, now + 60⟩) now2 q
      = some resp := by
    rw [getFromCache, hc]
    exact if_neg hfresh
  have h2 : query (some server) now2 (addToCache cache0 q ⟨resp, now + 60⟩) q
      = ⟨some resp, addToCache cache0 q ⟨resp, now + 60⟩, 0⟩ := by
    rw [query, hget]
  rw [h1]
  exact ⟨rfl, rfl, hc, by rw [h2], by rw [h2]⟩

/-- Witness for C9: query `[0,1]`, upstream replying `[0,3,7,8,9]` (length 3,
payload `[7,8,9]`), second query 2 seconds later. -/
theorem c9_dns_query_cache_witness :
    (query (some fun _ => [0, 3, 7, 8, 9]) 100 [] [0, 1]).response
        = some [7, 8, 9] ∧
    (query (some fun _ => [0, 3, 7, 8, 9]) 100 [] [0, 1]).dials = 1 ∧
    (query (some fun _ => [0, 3, 7, 8, 9]) 102
      (query (some fun _ => [0, 3, 7, 8, 9]) 100 [] [0, 1]).cache [0, 1]).dials
        = 0 := by
  have h := c9_dns_query_cache (fun _ => [0, 3, 7, 8, 9]) 100 102 [] [0, 1]
    [7, 8, 9] rfl rfl (by decide) (by decide) (by decide)
  exact ⟨h.1, h.2.1, h.2.2.2.2⟩

/-! ## C2 — UDP dispatch to the DNS resolver

`HandleUDPPacket`/`handleDNSQuery`/`buildUDPPacket` are translated from the
forwarder's UDP/DNS source file; `ExtractDomainFromQuery` from
`resolver.go:254-280`.  The outcome of `Resolver.Query` (verified in detail
for C9) enters here as the oracle `queryResult`. -/

/-- The label-walking loop of `ExtractDomainFromQuery`: while `pos` is inside
the query, a zero length byte ends the name; a length over 63 or overrunning
the buffer makes the whole extraction fail (empty result); otherwise the
label is appended (dot-separated) and `pos` advances past it.  The fuel
parameter only bounds the recursion: every iteration advances `pos` by at
least 2, so fuel `query.length` is never exhausted before `pos` leaves the
buffer. -/
def extractDomainLoop (query : List Nat) : Nat → Nat → List Nat → List Nat
  | 0, _, domain => domain
  | fuel + 1, pos, domain =>
    if pos < query.length then
      let len := byteAt query pos
      if len = 0 then domain
      else if 63 < len ∨ query.length < pos + 1 + len then []
      else
        extractDomainLoop query fuel (pos + 1 + len)
          (if domain = [] then (query.drop (pos + 1)).take len
           else domain ++ 46 :: (query.drop (pos + 1)).take len)
    else domain

/-- `dns.ExtractDomainFromQuery`: reject queries shorter than 13 bytes, then
walk the QNAME labels starting at offset 12. -/
def extractDomainFromQuery (query : List Nat) : List Nat :=
  if query.length < 13 then []
  else extractDomainLoop query query.length 12 []

/-- The DNS resolver as seen from the forwarder: the configured suffix list
and the outcome of `Resolver.Query` on given query bytes. -/
structure DnsEnv where
  domains : List (List Nat)
  queryResult : List Nat → Option (List Nat)

/-- Effects of the UDP path: packets emitted on the TUN device, number of
resolver queries issued, and whether an error was returned. -/
structure UdpResult where
  emitted : List (List Nat)
  queried : Nat
  err : Bool
  deriving Repr

/-- `handleDNSQuery` from the forwarder's UDP/DNS file: no configured
resolver, an unextractable domain, or an unhandled domain drop the query with
no emission; otherwise the resolver is queried and, on success, exactly one
UDP response packet (source = original destination and port, destination =
original source and port) is built and emitted. -/
def handleDNSQuery (env : Option DnsEnv) (srcIP dstIP srcPort dstPort : Nat)
    (queryData : List Nat) : UdpResult :=
  match env with
  | none => ⟨[], 0, false⟩
  | some env =>
    let domain := extractDomainFromQuery queryData
    if domain = [] then ⟨[], 0, false⟩
    else if ShouldHandle env.domains domain = false then ⟨[], 0, false⟩
    else
      match env.queryResult queryData with
      | none => ⟨[], 1, true⟩
      | some responseData =>
        ⟨[buildUDPPacket (uint32ToIP dstIP) dstPort (uint32ToIP srcIP) srcPort
            responseData], 1, false⟩

/-- `HandleUDPPacket` from the forwarder's UDP/DNS file: length-validate the
UDP header and declared UDP length, ignore any destination port other than
53, and hand the DNS payload `udpHeader[8:udpLength]` to `handleDNSQuery`. -/
def HandleUDPPacket (env : Option DnsEnv) (packet : List Nat) (ihl : Nat) :
    UdpResult :=
  if packet.length < ihl + 8 then ⟨[], 0, true⟩
  else
    let udpHeader := packet.drop ihl
    let dstPort := be16 (byteAt udpHeader 2) (byteAt udpHeader 3)
    let udpLength := be16 (byteAt udpHeader 4) (byteAt udpHeader 5)
    if udpHeader.length < udpLength then ⟨[], 0, true⟩
    else if dstPort ≠ 53 then ⟨[], 0, false⟩
    else
      let srcPort := be16 (byteAt udpHeader 0) (byteAt udpHeader 1)
      let srcIP := be32 (byteAt packet 12) (byteAt packet 13) (byteAt packet 14)
        (byteAt packet 15)
      let dstIP := be32 (byteAt packet 16) (byteAt packet 17) (byteAt packet 18)
        (byteAt packet 19)
      handleDNSQuery env srcIP dstIP srcPort dstPort
        ((udpHeader.drop 8).take (udpLength - 8))

/-- Combined result of dispatching one datagram. -/
structure PacketResult where
  table : List (ConnKey × TcpConn)
  emitted : List (List Nat)
  queried : Nat
  err : Bool
  deriving Repr

/-- Modelled from the spec: the protocol dispatch of `handlePacket` in the
DNS-enabled revision of `tun_to_socks.go`, which is missing from the sources
(the copy under `src/internal/forwarder` predates the DNS resolver and drops
all non-TCP; its successor's callers — `runStart` passing a DNS config and
`HandleUDPPacket` itself — are in the sources).  Spec: "**UDP:** dispatched
to the DNS resolver when destination port is 53; all other UDP is dropped.
**Non-TCP, non-UDP:** dropped."  The IPv4 validation is the one present in
the source `handlePacket`; protocol 6 keeps the source TCP path. -/
def handlePacketDispatch (env : Option DnsEnv) (dial : ConnKey → Option Nat)
    (writeOk : Nat → Bool) (now : Nat) (tbl : List (ConnKey × TcpConn))
    (packet : List Nat) : PacketResult :=
  if packet.length < 20 ∨ byteAt packet 0 / 16 ≠ 4 then ⟨tbl, [], 0, true⟩
  else
    let ihl := byteAt packet 0 % 16 * 4
    if packet.length < ihl ∨ ihl < 20 then ⟨tbl, [], 0, true⟩
    else if byteAt packet 9 = 6 then
      let r := handlePacket dial writeOk now tbl packet
      ⟨r.table, r.emitted, 0, r.err⟩
    else if byteAt packet 9 = 17 then
      let r := HandleUDPPacket env packet (byteAt packet 0 % 16 * 4)
      ⟨tbl, r.emitted, r.queried, r.err⟩
    else ⟨tbl, [], 0, false⟩

/-- The UDP source port of a raw datagram. -/
def udpSrcPort (p : List Nat) : Nat :=
  be16 (byteAt (p.drop (rawIHL p)) 0) (byteAt (p.drop (rawIHL p)) 1)

/-- The UDP destination port of a raw datagram. -/
def udpDstPort (p : List Nat) : Nat :=
  be16 (byteAt (p.drop (rawIHL p)) 2) (byteAt (p.drop (rawIHL p)) 3)

/-- The declared UDP length of a raw datagram. -/
def udpLen (p : List Nat) : Nat :=
  be16 (byteAt (p.drop (rawIHL p)) 4) (byteAt (p.drop (rawIHL p)) 5)

/-- The UDP payload `udpHeader[8:udpLength]` of a raw datagram. -/
def udpPayload (p : List Nat) : List Nat :=
  ((p.drop (rawIHL p)).drop 8).take (udpLen p - 8)

/-- The source address of a raw datagram. -/
def rawSrcIP (p : List Nat) : Nat :=
  be32 (byteAt p 12) (byteAt p 13) (byteAt p 14) (byteAt p 15)

/-- The destination address of a raw datagram. -/
def rawDstIP (p : List Nat) : Nat :=
  be32 (byteAt p 16) (byteAt p 17) (byteAt p 18) (byteAt p 19)

/-- **C2** — For every valid inbound IPv4 datagram: a UDP datagram to
destination port 53 is dispatched to the DNS resolver — the domain is
extracted, the suffix list consulted, and on a handled domain a resolver
query (issued upstream over TCP) produces exactly one synthesized UDP
response emitted toward the application; a UDP datagram to any other port is
dropped with no packet emitted and no query; a non-TCP, non-UDP datagram is
dropped with no packet emitted, no query, and no table change. -/
theorem c2_udp_dispatch (env : DnsEnv) (dial : ConnKey → Option Nat)
    (writeOk : Nat → Bool) (now : Nat) (tbl : List (ConnKey × TcpConn))
    (p : List Nat)
    (hv1 : ¬(p.length < 20 ∨ byteAt p 0 / 16 ≠ 4))
    (hv2 : ¬(p.length < rawIHL p ∨ rawIHL p < 20)) :
    (byteAt p 9 ≠ 6 → byteAt p 9 ≠ 17 →
      (handlePacketDispatch (some env) dial writeOk now tbl p).emitted = [] ∧
      (handlePacketDispatch (some env) dial writeOk now tbl p).queried = 0 ∧
      (handlePacketDispatch (some env) dial writeOk now tbl p).table = tbl) ∧
    (byteAt p 9 = 17 → ¬(p.length < rawIHL p + 8) →
      ¬((p.drop (rawIHL p)).length < udpLen p) → udpDstPort p ≠ 53 →
      (handlePacketDispatch (some env) dial writeOk now tbl p).emitted = [] ∧
      (handlePacketDispatch (some env) dial writeOk now tbl p).queried = 0) ∧
    (byteAt p 9 = 17 → ¬(p.length < rawIHL p + 8) →
      ¬((p.drop (rawIHL p)).length < udpLen p) → udpDstPort p = 53 →
      extractDomainFromQuery (udpPayload p) ≠ [] →
      ShouldHandle env.domains (extractDomainFromQuery (udpPayload p)) = true →
      ∀ resp, env.queryResult (udpPayload p) = some resp →
        (handlePacketDispatch (some env) dial writeOk now tbl p).emitted
          = [buildUDPPacket (uint32ToIP (rawDstIP p)) 53
              (uint32ToIP (rawSrcIP p)) (udpSrcPort p) resp] ∧
        (handlePacketDispatch (some env) dial writeOk now tbl p).queried = 1) := by
  rw [rawIHL] at hv2
  refine ⟨?_, ?_, ?_⟩
  · intro h6 h17
    rw [handlePacketDispatch]
    rw [if_neg hv1, if_neg hv2, if_neg h6, if_neg h17]
    exact ⟨rfl, rfl, rfl⟩
  · intro h17 hl1 hl2 hport
    rw [rawIHL] at hl1
    rw [udpLen, rawIHL] at hl2
    rw [udpDstPort, rawIHL] at hport
    rw [handlePacketDispatch]
    rw [if_neg hv1, if_neg hv2, if_neg (by rw [h17]; omega), if_pos h17,
      HandleUDPPacket, if_neg hl1]
    try simp only []
    rw [if_neg hl2, if_pos hport]
    exact ⟨rfl, rfl⟩
  · intro h17 hl1 hl2 hport hdom hsh resp hq
    rw [rawIHL] at hl1
    rw [udpLen, rawIHL] at hl2
    rw [udpDstPort, rawIHL] at hport
    rw [udpPayload, udpLen, rawIHL] at hdom hsh hq
    rw [handlePacketDispatch]
    rw [if_neg hv1, if_neg hv2, if_neg (by rw [h17]; omega), if_pos h17,
      HandleUDPPacket, if_neg hl1]
    try simp only []
    rw [if_neg hl2, if_neg (not_not_intro hport), handleDNSQuery]
    try simp only []
    rw [if_neg hdom, if_neg (by rw [hsh]; simp), hq]
    rw [hport]
    exact ⟨rfl, rfl⟩

/-- A resolver environment for the witness: suffix list
`["internal.example"]`, every query answered with the byte `[171]`. -/
def c2env : DnsEnv :=
  ⟨[[105, 110, 116, 101, 114, 110, 97, 108, 46, 101, 120, 97, 109, 112, 108,
    101]], fun _ => some [171]⟩

/-- A 65-byte IPv4 UDP datagram `10.0.0.5:5353 → 10.0.0.2:53` carrying a DNS
query for `db.internal.example`. -/
def c2dnsPacket : List Nat :=
  [0x45, 0, 0, 65, 0, 0, 0, 0, 64, 17, 0, 0, 10, 0, 0, 5, 10, 0, 0, 2,
    20, 233, 0, 53, 0, 45, 0, 0,
    0, 1, 1, 0, 0, 1, 0, 0, 0, 0, 0, 0,
    2, 100, 98, 8, 105, 110, 116, 101, 114, 110, 97, 108,
    7, 101, 120, 97, 109, 112, 108, 101, 0, 0, 1, 0, 1]

/-- Witness for C2: the query for `db.internal.example` yields exactly one
synthesized UDP response from `10.0.0.2:53` back to `10.0.0.5:5353`. -/
theorem c2_udp_dispatch_witness :
    (handlePacketDispatch (some c2env) (fun _ => none) (fun _ => true) 0 []
      c2dnsPacket).emitted
      = [buildUDPPacket (uint32ToIP (rawDstIP c2dnsPacket)) 53
          (uint32ToIP (rawSrcIP c2dnsPacket)) (udpSrcPort c2dnsPacket) [171]] ∧
    (handlePacketDispatch (some c2env) (fun _ => none) (fun _ => true) 0 []
      c2dnsPacket).queried = 1 := by
  have h := (c2_udp_dispatch c2env (fun _ => none) (fun _ => true) 0 []
    c2dnsPacket (by decide) (by decide)).2.2
  exact h (by decide) (by decide) (by decide) (by decide) (by decide)
    (by decide) [171] rfl

end SSMProxy
